import Mathlib

/-!
Verification of the dynamic query-building and validation layer of an
express/sequelize backend: a shallow embedding of

  * `parseQueryFromRequest`  (utils/parseQueryFromRequest.ts)
  * `validateQueryParams`    (utils/validateQueryParams.ts)
  * `buildSequelizeQuery`    (utils/sequelizeQuery.ts)

together with proofs of the security / functional properties claimed for
them (allowlist soundness, raw-filter stripping, cursor direction,
idempotence of validation, pagination clamping, aggregated errors,
offset arithmetic, parser bucketing, the implicit 1..200 limit cap).

Modelling conventions:
  * JavaScript numbers are modelled as `JSNum` (an integer or NaN);
    `Math.max` / `Math.min` propagate NaN exactly as in JS.
  * JavaScript records (objects used as string-keyed maps) are modelled
    as association lists in insertion order; `delete` removes the entry,
    assignment to an existing key overwrites in place, assignment to a
    fresh key appends (matching JS enumeration order).
  * `undefined` is `Option.none` for optional object properties; the
    primitive values `null` and `undefined` appearing *inside* filter
    values are the `Prim.null` / `Prim.undef` constructors.
  * Custom per-field validators (`FilterRule.validate`) are modelled as
    total boolean functions, following their declared TS types.
-/

/-- A JS primitive filter value (`Primitive` in sequelizeQuery.ts):
string, number, boolean, null or undefined.  Numbers are modelled as
integers. -/
inductive Prim where
  | str (s : String)
  | int (n : Int)
  | bool (b : Bool)
  | null
  | undef
deriving DecidableEq

/-- A JS number: an integer or NaN (the embedding does not model
fractional values or infinities; no claim depends on them). -/
inductive JSNum where
  | num (n : Int)
  | nan
deriving DecidableEq

/-- `Math.max` on two JS numbers: NaN-propagating. -/
def jmax : JSNum → JSNum → JSNum
  | .num a, .num b => .num (max a b)
  | _, _ => .nan

/-- `Math.min` on two JS numbers: NaN-propagating. -/
def jmin : JSNum → JSNum → JSNum
  | .num a, .num b => .num (min a b)
  | _, _ => .nan

/-- JS subtraction, NaN-propagating. -/
def jsub : JSNum → JSNum → JSNum
  | .num a, .num b => .num (a - b)
  | _, _ => .nan

/-- JS multiplication, NaN-propagating (0 * NaN is NaN in JS). -/
def jmul : JSNum → JSNum → JSNum
  | .num a, .num b => .num (a * b)
  | _, _ => .nan

/-- A cursor value (`cursor?: string | number`). -/
inductive CursorVal where
  | str (s : String)
  | num (n : Int)
deriving DecidableEq

/-- JS truthiness of an optional string property: absent and `""` are
falsy, every other string is truthy. -/
def strTruthy : Option String → Bool
  | some s => !(s == "")
  | none => false

/-- `String.prototype.toUpperCase()` (ASCII range, matching the
alphabetic tokens this code compares). -/
def jsToUpper (s : String) : String :=
  String.mk (s.data.map Char.toUpper)

/-- `String.prototype.toLowerCase()` (ASCII range). -/
def jsToLower (s : String) : String :=
  String.mk (s.data.map Char.toLower)

/-- `Array.prototype.join(sep)`. -/
def joinSep (sep : String) : List String → String
  | [] => ""
  | [x] => x
  | x :: rest => x ++ sep ++ joinSep sep rest

/-- Helper for `split(",")`. -/
def splitCommaAux : List Char → List Char → List String
  | [], acc => [String.mk acc.reverse]
  | c :: rest, acc =>
    if c = ',' then String.mk acc.reverse :: splitCommaAux rest []
    else splitCommaAux rest (c :: acc)

/-- `String.prototype.split(",")`: `""` yields `[""]`, a trailing comma
yields a trailing `""`. -/
def splitComma (s : String) : List String :=
  splitCommaAux s.data []

/-- Does `s` end with `suf` (counted in characters)? -/
def strEndsWith (s suf : String) : Bool :=
  List.isPrefixOf suf.data.reverse s.data.reverse

/-- Drop the last `n` characters. -/
def strDropRight (s : String) (n : Nat) : String :=
  String.mk (s.data.take (s.data.length - n))

/-- The `Pagination` member of `BuildQueryOptions`.  The two variants of
the TS union are flattened (the source reads the fields through
`(p as any)` anyway). -/
structure Pagination where
  mode : Option String := none
  page : Option JSNum := none
  pageSize : Option JSNum := none
  cursor : Option CursorVal := none
  cursorField : Option String := none
  direction : Option String := none
deriving DecidableEq

/-- The `Sort` member of `BuildQueryOptions` (named `SortOpt` because
`Sort` is a Lean keyword).  `allowlist` distinguishes absent (`none`,
falsy in JS) from present-but-empty (`some []`, truthy in JS). -/
structure SortOpt where
  sortBy : Option String := none
  sortDir : Option String := none
  allowlist : Option (List String) := none
deriving DecidableEq

/-- The SQL dialect flag carried on `Search`. -/
inductive Dialect where
  | postgres | mysql | sqlite | mariadb
deriving DecidableEq

/-- The `Search` member of `BuildQueryOptions`. -/
structure Search where
  q : Option String := none
  columns : Option (List String) := none
  dialect : Option Dialect := none
deriving DecidableEq

/-- Value of an `equals` filter entry: a primitive or an array of
primitives. -/
inductive EqVal where
  | one (p : Prim)
  | many (ps : List Prim)
deriving DecidableEq

/-- Value of a `contains` filter entry: a string or an array of
strings. -/
inductive ContVal where
  | one (s : String)
  | many (ss : List String)
deriving DecidableEq

/-- Value stored under one key of a `range` filter object: a scalar or
an array (arrays appear for `between`). -/
inductive RVal where
  | val (p : Prim)
  | arr (ps : List Prim)
deriving DecidableEq

/-- The opaque `raw` escape hatch (`raw?: WhereOptions`); its contents
are never inspected by the code under verification, so it is modelled
as an uninterpreted string. -/
abbrev RawWhere := String

/-- `FilterConfig` from sequelizeQuery.ts.  Records are association
lists in insertion order. -/
structure FilterConfig where
  equals : Option (List (String × EqVal)) := none
  contains : Option (List (String × ContVal)) := none
  range : Option (List (String × List (String × RVal))) := none
  raw : Option RawWhere := none
deriving DecidableEq

/-- One sequelize order item `[column, direction]`. -/
abbrev OrderItem := String × String

/-- `BuildQueryOptions`: the query intent handed to the validator and
the compiler. -/
structure BuildQueryOptions where
  pagination : Option Pagination := none
  sort : Option SortOpt := none
  search : Option Search := none
  filters : Option FilterConfig := none
  defaultOrder : Option (List OrderItem) := none
deriving DecidableEq

/-- `FilterRule.allow` from validateQueryParams.ts: which operators a
policy permits on one field.  `range` maps range-operator names
(`"gte"`, `"lte"`, `"gt"`, `"lt"`, `"between"`) to booleans. -/
structure RuleAllow where
  equals : Option Bool := none
  contains : Option Bool := none
  range : Option (List (String × Bool)) := none

/-- `FilterRule.validate`: optional custom per-operator validators,
modelled as total boolean functions per their TS types. -/
structure RuleValidate where
  equals : Option (EqVal → Bool) := none
  contains : Option (ContVal → Bool) := none
  range : Option (List (String × RVal) → Bool) := none

/-- One per-field filter rule of the policy. -/
structure FilterRule where
  field : String
  allow : RuleAllow
  validate : RuleValidate := {}

/-- `ValidateFields`: the per-endpoint allowlist policy. -/
structure ValidateFields where
  sortColumns : Option (List String) := none
  sortDir : Option (List String) := none
  searchColumns : Option (List String) := none
  filters : Option (List FilterRule) := none
  maxPageSize : Option Int := none
  minPageSize : Option Int := none

/-- `ApiErrorClass` as far as this subsystem observes it: a message and
an HTTP status code. -/
structure ApiError where
  message : String
  statusCode : Int
deriving DecidableEq

/-- `clamp` from validateQueryParams.ts:
`Math.max(min, Math.min(max, n))`. -/
def clamp (n : JSNum) (lo hi : Int) : JSNum :=
  jmax (.num lo) (jmin (.num hi) n)

/-- `isRangeOp` from validateQueryParams.ts. -/
def isRangeOp (op : String) : Bool :=
  op == "gte" || op == "lte" || op == "gt" || op == "lt" || op == "between"

/-- `isPrimitiveArray`: every element is a string/number/boolean or
`== null` (which also accepts `undefined`).  Under the modelled value
type this is identically true, mirroring the fact that the check cannot
fail on values of the declared TS type. -/
def isPrimitiveArray (ps : List Prim) : Bool :=
  ps.all fun p =>
    match p with
    | .str _ => true
    | .int _ => true
    | .bool _ => true
    | .null => true
    | .undef => true

/-- `isStringArray`: every element is a string; identically true on
`List String`. -/
def isStringArray (ss : List String) : Bool :=
  ss.all fun _ => true

/-- `new Map(); rules.forEach(r => byField.set(r.field, r))` followed by
`byField.get(field)`: the *last* rule for a field wins. -/
def byFieldGet (rules : List FilterRule) (f : String) : Option FilterRule :=
  rules.reverse.find? (fun r => r.field == f)

/-- `JSON.parse(JSON.stringify(·))` on one `equals` entry value:
object properties whose value is `undefined` are dropped entirely (the
caller filters on `none`); `undefined` inside arrays becomes `null`. -/
def jsonEqVal : EqVal → Option EqVal
  | .one .undef => none
  | .one p => some (.one p)
  | .many ps => some (.many (ps.map fun p => if p = .undef then .null else p))

/-- JSON round-trip of one `range` sub-entry value. -/
def jsonRVal : RVal → Option RVal
  | .val .undef => none
  | .val p => some (.val p)
  | .arr ps => some (.arr (ps.map fun p => if p = .undef then .null else p))

/-- JSON round-trip of a whole `FilterConfig` (the "deep-ish copy" the
validator starts from).  String-valued entries survive unchanged. -/
def jsonCopyFilters (f : FilterConfig) : FilterConfig where
  equals := f.equals.map fun l =>
    l.filterMap fun e => (jsonEqVal e.2).map fun v => (e.1, v)
  contains := f.contains
  range := f.range.map fun l =>
    l.map fun e =>
      (e.1, e.2.filterMap fun o => (jsonRVal o.2).map fun v => (o.1, v))
  raw := f.raw

/-- The error message pushed for a filter on a field/operator pair the
policy does not allow. -/
def notAllowedMsg (field op : String) : String :=
  "Filtering not allowed on field \"" ++ field ++ "\" with operator \"" ++ op ++ "\""

/-- One iteration of the validator's `equals` loop: whether the entry is
kept, and the errors it contributes. -/
def processEqualsEntry (rules : List FilterRule) (field : String) (val : EqVal) :
    Bool × List String :=
  match byFieldGet rules field with
  | none => (false, [notAllowedMsg field "equals"])
  | some rule =>
    if rule.allow.equals.getD false = false then
      (false, [notAllowedMsg field "equals"])
    else
      let ok := match val with
        | .many ps => isPrimitiveArray ps
        | .one _ => true
      let e1 := if ok then [] else ["Invalid value for equals(" ++ field ++ ")"]
      let e2 := match rule.validate.equals with
        | some f => if f val then [] else ["Custom validation failed for equals(" ++ field ++ ")"]
        | none => []
      (true, e1 ++ e2)

/-- The validator's `equals` loop: kept entries (in order) and errors. -/
def processEquals (rules : List FilterRule) :
    List (String × EqVal) → List (String × EqVal) × List String
  | [] => ([], [])
  | (field, val) :: rest =>
    let r := processEqualsEntry rules field val
    let t := processEquals rules rest
    ((if r.1 then [(field, val)] else []) ++ t.1, r.2 ++ t.2)

/-- One iteration of the validator's `contains` loop. -/
def processContainsEntry (rules : List FilterRule) (field : String) (val : ContVal) :
    Bool × List String :=
  match byFieldGet rules field with
  | none => (false, [notAllowedMsg field "contains"])
  | some rule =>
    if rule.allow.contains.getD false = false then
      (false, [notAllowedMsg field "contains"])
    else
      let ok := match val with
        | .one _ => true
        | .many ss => isStringArray ss
      let e1 := if ok then [] else ["Invalid value for contains(" ++ field ++ ")"]
      let e2 := match rule.validate.contains with
        | some f => if f val then [] else ["Custom validation failed for contains(" ++ field ++ ")"]
        | none => []
      (true, e1 ++ e2)

/-- The validator's `contains` loop. -/
def processContains (rules : List FilterRule) :
    List (String × ContVal) → List (String × ContVal) × List String
  | [] => ([], [])
  | (field, val) :: rest =>
    let r := processContainsEntry rules field val
    let t := processContains rules rest
    ((if r.1 then [(field, val)] else []) ++ t.1, r.2 ++ t.2)

/-- One sub-operator check inside the validator's `range` loop. -/
def processRangeOp (allowedOps : List (String × Bool)) (field op : String) (v : RVal) :
    Bool × List String :=
  if !isRangeOp op then
    (false, ["Invalid range operator for " ++ field ++ ": " ++ op])
  else if ((allowedOps.lookup op).getD false) = false then
    (false, ["Range operator not allowed for " ++ field ++ ": " ++ op])
  else if op == "between" then
    match v with
    | .arr ps =>
      if ps.length == 2 then (true, [])
      else (false, ["between(" ++ field ++ ") requires an array of exactly 2 values"])
    | .val _ => (false, ["between(" ++ field ++ ") requires an array of exactly 2 values"])
  else (true, [])

/-- The inner loop over one range object's operators. -/
def processRangeOps (allowedOps : List (String × Bool)) (field : String) :
    List (String × RVal) → List (String × RVal) × List String
  | [] => ([], [])
  | (op, v) :: rest =>
    let r := processRangeOp allowedOps field op v
    let t := processRangeOps allowedOps field rest
    ((if r.1 then [(op, v)] else []) ++ t.1, r.2 ++ t.2)

/-- One iteration of the validator's outer `range` loop: the surviving
range object for a field (or `none` when the field is dropped), with
errors. -/
def processRangeField (rules : List FilterRule) (field : String)
    (obj : List (String × RVal)) : Option (List (String × RVal)) × List String :=
  match byFieldGet rules field with
  | none => (none, [notAllowedMsg field "range"])
  | some rule =>
    match rule.allow.range with
    | none => (none, [notAllowedMsg field "range"])
    | some allowedOps =>
      let r := processRangeOps allowedOps field obj
      let customErrs := match rule.validate.range with
        | some f => if f r.1 then [] else ["Custom validation failed for range(" ++ field ++ ")"]
        | none => []
      (if r.1.isEmpty then none else some r.1, r.2 ++ customErrs)

/-- The validator's `range` loop over fields. -/
def processRange (rules : List FilterRule) :
    List (String × List (String × RVal)) →
      List (String × List (String × RVal)) × List String
  | [] => ([], [])
  | (field, obj) :: rest =>
    let r := processRangeField rules field obj
    let t := processRange rules rest
    ((match r.1 with | some k => [(field, k)] | none => []) ++ t.1, r.2 ++ t.2)

/-- The `equals` block of the validator's filters section (including
the trailing `delete` of an emptied record). -/
def sanitizeEqualsBucket (rules : List FilterRule)
    (lv : Option (List (String × EqVal))) :
    Option (List (String × EqVal)) × List String :=
  match lv with
  | none => (none, [])
  | some l =>
    let r := processEquals rules l
    (if r.1.isEmpty then none else some r.1, r.2)

/-- The `contains` block of the validator's filters section. -/
def sanitizeContainsBucket (rules : List FilterRule)
    (lv : Option (List (String × ContVal))) :
    Option (List (String × ContVal)) × List String :=
  match lv with
  | none => (none, [])
  | some l =>
    let r := processContains rules l
    (if r.1.isEmpty then none else some r.1, r.2)

/-- The `range` block of the validator's filters section. -/
def sanitizeRangeBucket (rules : List FilterRule)
    (lv : Option (List (String × List (String × RVal)))) :
    Option (List (String × List (String × RVal))) × List String :=
  match lv with
  | none => (none, [])
  | some l =>
    let r := processRange rules l
    (if r.1.isEmpty then none else some r.1, r.2)

/-- The `---- Filters ----` section of `validateQueryParams`, applied to
the deep-copied filters: drops disallowed entries, always strips `raw`,
deletes empty sub-records and the empty filters object, and accumulates
every violation. -/
def sanitizeFilters (fs : Option FilterConfig) (cfg : ValidateFields) :
    Option FilterConfig × List String :=
  match fs with
  | none => (none, [])
  | some f =>
    match cfg.filters with
    | none => (none, [])
    | some rules =>
      if rules.isEmpty then (none, [])
      else
        let eqR := sanitizeEqualsBucket rules f.equals
        let contR := sanitizeContainsBucket rules f.contains
        let rngR := sanitizeRangeBucket rules f.range
        let errs := eqR.2 ++ contR.2 ++ rngR.2
        if eqR.1.isNone ∧ contR.1.isNone ∧ rngR.1.isNone then (none, errs)
        else (some ⟨eqR.1, contR.1, rngR.1, none⟩, errs)

/-- The `---- Pagination ----` section of `validateQueryParams`: clamps
`pageSize` into `[minPS, maxPS]` (cursor and offset modes) and floors
`page` at 1 (offset mode).  Never produces errors. -/
def sanitizePagination (ps : Option Pagination) (minPS maxPS : Int) : Option Pagination :=
  match ps with
  | none => none
  | some p =>
    if p.mode = some "cursor" then
      some { p with pageSize := some (clamp (p.pageSize.getD (.num 20)) minPS maxPS) }
    else
      some { p with page := some (jmax (p.page.getD (.num 1)) (.num 1)),
                    pageSize := some (clamp (p.pageSize.getD (.num 20)) minPS maxPS) }

/-- The `sortBy` allowlist check of the validator's sort section. -/
def sortByErrors (s : SortOpt) (cfg : ValidateFields) : List String :=
  if strTruthy s.sortBy then
    if (cfg.sortColumns.getD []).contains (s.sortBy.getD "") then []
    else ["Invalid sort column: " ++ s.sortBy.getD ""]
  else []

/-- The `sortDir` check of the validator's sort section: the resulting
(canonicalized) direction and its errors. -/
def sortDirResult (s : SortOpt) (cfg : ValidateFields) : Option String × List String :=
  if strTruthy s.sortDir then
    let dir := jsToLower (s.sortDir.getD "")
    match cfg.sortDir with
    | some allowedDirs =>
      if !allowedDirs.contains dir then
        (s.sortDir, ["Invalid sort direction: " ++ s.sortDir.getD ""])
      else if dir ≠ "asc" ∧ dir ≠ "desc" then
        (s.sortDir, ["Invalid sort direction: " ++ s.sortDir.getD ""])
      else (some dir, [])
    | none =>
      if dir ≠ "asc" ∧ dir ≠ "desc" then
        (s.sortDir, ["Invalid sort direction: " ++ s.sortDir.getD ""])
      else (some dir, [])
  else (s.sortDir, [])

/-- The `---- Sort ----` section of `validateQueryParams`: checks
`sortBy` against the policy, canonicalizes a valid `sortDir` to
lowercase, and always deletes the user-supplied `allowlist`. -/
def sanitizeSort (ss : Option SortOpt) (cfg : ValidateFields) :
    Option SortOpt × List String :=
  match ss with
  | none => (none, [])
  | some s =>
    (some { s with sortDir := (sortDirResult s cfg).1, allowlist := none },
     sortByErrors s cfg ++ (sortDirResult s cfg).2)

/-- The `---- Search ----` section of `validateQueryParams`: deletes
search without a query, substitutes or intersects the column allowlist,
and reports requested columns outside it. -/
def sanitizeSearch (ss : Option Search) (cfg : ValidateFields) :
    Option Search × List String :=
  match ss with
  | none => (none, [])
  | some s =>
    if strTruthy s.q then
      match cfg.searchColumns with
      | none => (some { s with columns := some [] }, [])
      | some sc =>
        if sc.isEmpty then (some { s with columns := some [] }, [])
        else
          let requested := s.columns.getD []
          if requested.isEmpty then (some { s with columns := some sc }, [])
          else
            let bad := requested.filter fun c => !sc.contains c
            let errs :=
              if bad.isEmpty then []
              else ["Invalid search columns: " ++ joinSep ", " bad]
            (some { s with columns := some (requested.filter fun c => sc.contains c) }, errs)
    else (none, [])

/-- `validateQueryParams` up to (but not including) the final
throw-or-return: the sanitized copy and the aggregated violation
list, in source order (sort, search, filters; pagination contributes
none). -/
def validateCore (baseOpts : BuildQueryOptions) (cfg : ValidateFields) :
    BuildQueryOptions × List String :=
  let maxPS := cfg.maxPageSize.getD 200
  let minPS := cfg.minPageSize.getD 1
  let pag := sanitizePagination baseOpts.pagination minPS maxPS
  let srtR := sanitizeSort baseOpts.sort cfg
  let schR := sanitizeSearch baseOpts.search cfg
  let fltR := sanitizeFilters (baseOpts.filters.map jsonCopyFilters) cfg
  ({ pagination := pag, sort := srtR.1, search := schR.1, filters := fltR.1,
     defaultOrder := baseOpts.defaultOrder }, srtR.2 ++ schR.2 ++ fltR.2)

/-- `validateQueryParams`: returns the sanitized copy, or throws a
single `ApiErrorClass` with status 400 whose message joins every
violation found. -/
def validateQueryParams (baseOpts : BuildQueryOptions) (cfg : ValidateFields) :
    Except ApiError BuildQueryOptions :=
  let r := validateCore baseOpts cfg
  if r.2.isEmpty then .ok r.1
  else .error ⟨"Failed to validate request: " ++ joinSep "; " r.2, 400⟩

/-- A sequelize operator key appearing at field level in the compiled
where object (`Op.in`, `Op.between`, `Op.gte`, `Op.lte`, `Op.gt`,
`Op.lt`). -/
inductive SqOp where
  | inOp | between | gte | lte | gt | lt
deriving DecidableEq

/-- The condition compiled for one field of the where object: a bare
primitive (`where[k] = v`), an operator-keyed object, or — after the
range loop spreads a clause onto a bare non-empty string (`{ ...s,
...clause }`) — an object carrying the string's index-keyed character
entries (`"0"`, `"1"`, …) alongside the operator keys. -/
inductive FieldCond where
  | prim (p : Prim)
  | ops (l : List (SqOp × RVal))
  | strOps (residue : List (String × String)) (l : List (SqOp × RVal))
deriving DecidableEq

/-- One `LIKE`/`ILIKE` comparison `{ [column]: { [likeOp]: pattern } }`
as produced for `contains` filters and free-text search. -/
structure LikeLeaf where
  field : String
  insensitive : Bool
  pattern : String
deriving DecidableEq

/-- The comparison operator of a cursor predicate. -/
inductive CmpOp where
  | gt | lt
deriving DecidableEq

/-- One element of the compiled where object's `Op.and` array. -/
inductive AndItem where
  | orGroup (leaves : List LikeLeaf)
  | raw (w : RawWhere)
  | cursor (field : String) (cmp : CmpOp) (value : CursorVal)
deriving DecidableEq

/-- The compiled where object: string-keyed field conditions plus the
`Op.and` array (absent and empty are not distinguished; the source
never leaves an empty `Op.and` behind). -/
structure Where where
  fields : List (String × FieldCond) := []
  andList : List AndItem := []
deriving DecidableEq

/-- The result of `buildSequelizeQuery`. -/
structure QueryPlan where
  whereQ : Where
  order : List OrderItem
  limit : JSNum
  offset : Option JSNum
  cursorClause : Option AndItem := none
  cursorOrder : Option (List OrderItem) := none
deriving DecidableEq

/-- JS object assignment `obj[k] = v` on an insertion-ordered record:
overwrite in place if the key exists, else append. -/
def setKey {α : Type} (l : List (String × α)) (k : String) (v : α) :
    List (String × α) :=
  if l.any fun e => e.1 == k then
    l.map fun e => if e.1 == k then (k, v) else e
  else l ++ [(k, v)]

/-- JS object read `obj[k]`. -/
def getKey {α : Type} (l : List (String × α)) (k : String) : Option α :=
  (l.find? fun e => e.1 == k).map Prod.snd

/-- JS object spread `{ ...old, ...upd }` on operator-keyed objects:
existing keys keep their position (values overridden), new keys are
appended in order. -/
def spreadMergeOps (old upd : List (SqOp × RVal)) : List (SqOp × RVal) :=
  (old.map fun e => match upd.lookup e.1 with
    | some v => (e.1, v)
    | none => e) ++
  upd.filter fun e => !(old.any fun o => o.1 == e.1)

/-- The compiler's equals loop: scalars assign `where[k] = v`
(`undefined` skipped), arrays assign `{ [Op.in]: v }`. -/
def applyEquals (w : Where) : List (String × EqVal) → Where
  | [] => w
  | (k, v) :: rest =>
    let w' := match v with
      | .one .undef => w
      | .one p => { w with fields := setKey w.fields k (.prim p) }
      | .many ps => { w with fields := setKey w.fields k (.ops [(.inOp, .arr ps)]) }
    applyEquals w' rest

/-- The like-pieces built for one `contains` entry: empty strings are
dropped by `.filter(Boolean)`, the rest wrapped in `%` wildcards. -/
def containsPieces (k : String) (useILike : Bool) (vals : List String) :
    List LikeLeaf :=
  (vals.filter fun s => !(s == "")).map fun s =>
    { field := k, insensitive := useILike, pattern := "%" ++ s ++ "%" }

/-- `Array.isArray(v) ? v : [v]` for a contains value. -/
def contValues : ContVal → List String
  | .one s => [s]
  | .many ss => ss

/-- The compiler's contains loop: each entry with nonempty pieces adds
one OR-group to `Op.and`. -/
def applyContains (useILike : Bool) (w : Where) : List (String × ContVal) → Where
  | [] => w
  | (k, v) :: rest =>
    let pieces := containsPieces k useILike (contValues v)
    let w' := if pieces.isEmpty then w
      else { w with andList := w.andList ++ [.orGroup pieces] }
    applyContains useILike w' rest

/-- JS truthiness of a range sub-value (used by the compiler's
`"between" in cfg && cfg.between` guard). -/
def rvTruthy : RVal → Bool
  | .arr _ => true
  | .val p =>
    match p with
    | .str s => !(s == "")
    | .int n => !(n == 0)
    | .bool b => b
    | .null => false
    | .undef => false

/-- The operator-keyed clause the compiler builds from one range object
(fixed probe order: between, gte, lte, gt, lt). -/
def buildRangeClause (cfg : List (String × RVal)) : List (SqOp × RVal) :=
  (match cfg.lookup "between" with
   | some v => if rvTruthy v then [(SqOp.between, v)] else []
   | none => []) ++
  (match cfg.lookup "gte" with
   | some v => if v ≠ .val .undef then [(SqOp.gte, v)] else []
   | none => []) ++
  (match cfg.lookup "lte" with
   | some v => if v ≠ .val .undef then [(SqOp.lte, v)] else []
   | none => []) ++
  (match cfg.lookup "gt" with
   | some v => if v ≠ .val .undef then [(SqOp.gt, v)] else []
   | none => []) ++
  (match cfg.lookup "lt" with
   | some v => if v ≠ .val .undef then [(SqOp.lt, v)] else []
   | none => [])

/-- Decimal rendering of a `Nat` (JS `String(i)` for array/string
indices), by fuel-bounded division. -/
def natToStringAux : Nat → Nat → List Char
  | 0, _ => []
  | fuel + 1, n =>
    if n < 10 then [Char.ofNat (48 + n)]
    else natToStringAux fuel (n / 10) ++ [Char.ofNat (48 + n % 10)]

/-- `String(i)` for a natural index. -/
def natToString (n : Nat) : String :=
  String.mk (natToStringAux (n + 1) n)

/-- The own enumerable properties JS object spread copies from a string
primitive: one index-keyed single-character entry per position
(`{ ..."30" }` is `{ "0": "3", "1": "0" }`). -/
def strSpread (s : String) : List (String × String) :=
  s.data.enum.map fun e => (natToString e.1, String.mk [e.2])

/-- `{ ...(where)[k], ...clause }`: spreading an absent value, a number,
a boolean or `null` contributes nothing, but spreading a non-empty
string keeps its index-keyed character entries; spreading an
operator-keyed object keeps its operator entries (overridden in place
by `clause`, new keys appended). -/
def mergeFieldCond (old : Option FieldCond) (clause : List (SqOp × RVal)) :
    FieldCond :=
  match old with
  | none => .ops clause
  | some (.prim (.str s)) =>
    if s == "" then .ops clause else .strOps (strSpread s) clause
  | some (.prim _) => .ops clause
  | some (.ops l) => .ops (spreadMergeOps l clause)
  | some (.strOps residue l) => .strOps residue (spreadMergeOps l clause)

/-- The compiler's range loop: a nonempty clause is spread-merged onto
the field's existing condition. -/
def applyRange (w : Where) : List (String × List (String × RVal)) → Where
  | [] => w
  | (k, cfg) :: rest =>
    let clause := buildRangeClause cfg
    let w' := if clause.isEmpty then w
      else { w with fields := setKey w.fields k (mergeFieldCond (getKey w.fields k) clause) }
    applyRange w' rest

/-- Whether the compiler uses `Op.iLike` instead of `Op.like`
(`opts.search?.dialect === "postgres"`). -/
def useILikeOf (opts : BuildQueryOptions) : Bool :=
  (opts.search.bind fun s => s.dialect) = some Dialect.postgres

/-- The `if (f?.equals)` section of `buildSequelizeQuery`. -/
def equalsStage (opts : BuildQueryOptions) (w : Where) : Where :=
  match opts.filters.bind fun f => f.equals with
  | some entries => applyEquals w entries
  | none => w

/-- The `if (f?.contains)` section of `buildSequelizeQuery`. -/
def containsStage (opts : BuildQueryOptions) (w : Where) : Where :=
  match opts.filters.bind fun f => f.contains with
  | some entries => applyContains (useILikeOf opts) w entries
  | none => w

/-- The `if (f?.range)` section of `buildSequelizeQuery`. -/
def rangeStage (opts : BuildQueryOptions) (w : Where) : Where :=
  match opts.filters.bind fun f => f.range with
  | some entries => applyRange w entries
  | none => w

/-- The `if (f?.raw)` section of `buildSequelizeQuery`: pushes the raw
predicate onto `Op.and`. -/
def rawStage (opts : BuildQueryOptions) (w : Where) : Where :=
  match opts.filters.bind fun f => f.raw with
  | some r => { w with andList := w.andList ++ [.raw r] }
  | none => w

/-- The leaves of the free-text-search OR-group. -/
def searchLeaves (opts : BuildQueryOptions) (s : Search) : List LikeLeaf :=
  (s.columns.getD []).map fun c =>
    { field := c, insensitive := useILikeOf opts,
      pattern := "%" ++ s.q.getD "" ++ "%" }

/-- The `if (s?.q && s?.columns?.length)` section of
`buildSequelizeQuery`. -/
def searchStage (opts : BuildQueryOptions) (w : Where) : Where :=
  match opts.search with
  | some s =>
    if strTruthy s.q && !(s.columns.getD []).isEmpty then
      { w with andList := w.andList ++ [.orGroup (searchLeaves opts s)] }
    else w
  | none => w

/-- The filters/search portion of `buildSequelizeQuery`: the `where`
object after the equals, contains, range, raw and free-text-search
sections (in source order). -/
def compileWhere (opts : BuildQueryOptions) : Where :=
  searchStage opts (rawStage opts (rangeStage opts (containsStage opts
    (equalsStage opts {}))))

/-- The sorting portion of `buildSequelizeQuery`: the `order` list. -/
def compileOrder (opts : BuildQueryOptions) : List OrderItem :=
  let defOrder := opts.defaultOrder.getD [("created_at", "DESC")]
  match opts.sort with
  | some srt =>
    if strTruthy srt.sortBy then
      let safe := match srt.allowlist with
        | none => true
        | some al => al.contains (srt.sortBy.getD "")
      if safe then [(srt.sortBy.getD "", jsToUpper (srt.sortDir.getD "asc"))]
      else defOrder
    else defOrder
  | none => defOrder

/-- The cursor field chosen in cursor mode:
`p.cursorField ?? (Array.isArray(order[0]) ? order[0][0] : "id")`. -/
def effectiveCursorField (opts : BuildQueryOptions) (p : Pagination) : String :=
  p.cursorField.getD (match compileOrder opts with
    | (f, _) :: _ => f
    | [] => "id")

/-- Whether the effective first order entry is descending
(`order[0][1].toUpperCase() === "DESC"`, false when there is no order
entry). -/
def effectiveIsDesc (opts : BuildQueryOptions) : Bool :=
  match compileOrder opts with
  | (_, d) :: _ => jsToUpper d == "DESC"
  | [] => false

/-- The cursor comparison operator: next+asc→gt, next+desc→lt,
prev+asc→lt, prev+desc→gt. -/
def cursorCmp (opts : BuildQueryOptions) (p : Pagination) : CmpOp :=
  if (p.direction.getD "next") == "next" then
    (if effectiveIsDesc opts then CmpOp.lt else CmpOp.gt)
  else
    (if effectiveIsDesc opts then CmpOp.gt else CmpOp.lt)

/-- The cursor clause: present only when a cursor value other than
`undefined`/`null`/`""` was supplied. -/
def cursorCC (opts : BuildQueryOptions) (p : Pagination) : Option AndItem :=
  match p.cursor with
  | some v =>
    if v = .str "" then none
    else some (.cursor (effectiveCursorField opts p) (cursorCmp opts p) v)
  | none => none

/-- `buildSequelizeQuery` from sequelizeQuery.ts. -/
def buildSequelizeQuery (opts : BuildQueryOptions) : QueryPlan :=
  let w5 := compileWhere opts
  let order := compileOrder opts
  let p := opts.pagination.getD {}
  if p.mode = some "cursor" then
    let cc := cursorCC opts p
    let w6 := match cc with
      | some item => { w5 with andList := w5.andList ++ [item] }
      | none => w5
    let limit := jmin (jmax (p.pageSize.getD (.num 20)) (.num 1)) (.num 200)
    { whereQ := w6, order := order, limit := limit, offset := none,
      cursorClause := cc, cursorOrder := some order }
  else
    let page := jmax (p.page.getD (.num 1)) (.num 1)
    let pageSize := jmin (jmax (p.pageSize.getD (.num 20)) (.num 1)) (.num 200)
    { whereQ := w5, order := order, limit := pageSize,
      offset := some (jmul (jsub page (.num 1)) pageSize),
      cursorClause := none, cursorOrder := none }

/-- JS `Number(·)` on a query-string value: empty/whitespace is 0, an
optionally signed digit string is that integer, anything else NaN
(fractional literals are outside the integer model). -/
def digitsToNat (cs : List Char) : Nat :=
  cs.foldl (fun acc c => acc * 10 + (c.toNat - 48)) 0

def jsStringToNumber (s : String) : JSNum :=
  let t := (s.data.dropWhile Char.isWhitespace).reverse.dropWhile Char.isWhitespace |>.reverse
  if t = [] then .num 0
  else
    let sign : Int := if t.head? = some (Char.ofNat 45) then -1 else 1
    let digits := if t.head? = some (Char.ofNat 45) || t.head? = some (Char.ofNat 43)
      then t.tail else t
    if digits ≠ [] && digits.all Char.isDigit then
      .num (sign * (digitsToNat digits : Nat))
    else .nan

/-- `x || d` on a JS number: 0 and NaN fall back to the default. -/
def numOr (n : JSNum) (d : Int) : JSNum :=
  match n with
  | .num 0 => .num d
  | .nan => .num d
  | x => x

/-- Does `k` end in the bracketed operator `[op]` with a nonempty field
part?  (One alternative of the parser's
`^(.+)\[(gte|lte|gt|lt|between|contains)\]$` regex; the six bracketed
suffixes are pairwise non-overlapping, so at most one matches.) -/
def opSuffixMatch (k op : String) : Option (String × String) :=
  let suf := "[" ++ op ++ "]"
  if strEndsWith k suf && suf.data.length < k.data.length then
    some (strDropRight k suf.data.length, op)
  else none

/-- The parser's bracket-suffix regex match. -/
def matchOpKey (k : String) : Option (String × String) :=
  (opSuffixMatch k "gte") <|> (opSuffixMatch k "lte") <|> (opSuffixMatch k "gt")
    <|> (opSuffixMatch k "lt") <|> (opSuffixMatch k "between")
    <|> (opSuffixMatch k "contains")

/-- One step of the parser's filter-bucketing loop over the non-reserved
query entries. -/
def bucketStep
    (acc : List (String × EqVal) × List (String × List (String × RVal)) ×
      List (String × ContVal))
    (kv : String × String) :
    List (String × EqVal) × List (String × List (String × RVal)) ×
      List (String × ContVal) :=
  match matchOpKey kv.1 with
  | some (field, op) =>
    if op = "contains" then
      (acc.1, acc.2.1, setKey acc.2.2 field (.one kv.2))
    else if op = "between" then
      (acc.1,
       setKey acc.2.1 field [("between", RVal.arr ((splitComma kv.2).map Prim.str))],
       acc.2.2)
    else
      (acc.1,
       setKey acc.2.1 field
         (setKey ((acc.2.1.lookup field).getD []) op (RVal.val (.str kv.2))),
       acc.2.2)
  | none => (setKey acc.1 kv.1 (.one (.str kv.2)), acc.2.1, acc.2.2)

/-- The reserved query keys destructured away before filter
bucketing. -/
def reservedKeys : List String :=
  ["page", "pageSize", "sortBy", "sortDir", "q", "cursor", "cursorField",
   "direction", "mode"]

/-- `parseQueryFromRequest` from utils/parseQueryFromRequest.ts, on a
flat string-valued query (the untyped express query is restricted to
single string values per key). -/
def parseQueryFromRequest (query : List (String × String)) : BuildQueryOptions :=
  let get := fun k => query.lookup k
  let rest := query.filter fun e => !reservedKeys.contains e.1
  let pagination : Pagination :=
    if get "mode" = some "cursor" then
      { mode := some "cursor",
        cursor := (get "cursor").map CursorVal.str,
        cursorField := match get "cursorField" with
          | some s => if s = "" then none else some s
          | none => none,
        direction := some (match get "direction" with
          | some s => if s = "" then "next" else s
          | none => "next"),
        pageSize := some (numOr (match get "pageSize" with
          | some s => jsStringToNumber s
          | none => .nan) 20) }
    else
      { mode := some "offset",
        page := some (numOr (match get "page" with
          | some s => jsStringToNumber s
          | none => .nan) 1),
        pageSize := some (numOr (match get "pageSize" with
          | some s => jsStringToNumber s
          | none => .nan) 20) }
  let sort : SortOpt :=
    { sortBy := match get "sortBy" with
        | some s => if s = "" then none else some s
        | none => none,
      sortDir := some (match get "sortDir" with
        | some s => if s = "" then "asc" else s
        | none => "asc"),
      allowlist := some [] }
  let search : Option Search := match get "q" with
    | some s =>
      if s = "" then none
      else some { q := some s, columns := some [], dialect := some .postgres }
    | none => none
  let buckets := rest.foldl bucketStep ([], [], [])
  let filters : FilterConfig :=
    { equals := some buckets.1,
      range := if buckets.2.1.isEmpty then none else some buckets.2.1,
      contains := if buckets.2.2.isEmpty then none else some buckets.2.2,
      raw := none }
  { pagination := some pagination, sort := some sort, search := search,
    filters := some filters, defaultOrder := none }

/-! ## Basic lemmas about the JS-semantics helpers -/

lemma clamp_idem (n : JSNum) (lo hi : Int) :
    clamp (clamp n lo hi) lo hi = clamp n lo hi := by
  cases n with
  | nan => rfl
  | num m =>
    simp only [clamp, jmin, jmax]
    congr 1
    omega

lemma jmax_one_idem (x : JSNum) :
    jmax (jmax x (.num 1)) (.num 1) = jmax x (.num 1) := by
  cases x with
  | nan => rfl
  | num m => simp only [jmax]; congr 1; omega

/-! ## C10: the compiler's own 1..200 limit cap -/

lemma opt_pageSize_eq (opts : BuildQueryOptions) :
    opts.pagination.bind (fun p => p.pageSize) = (opts.pagination.getD {}).pageSize := by
  cases opts.pagination <;> rfl

lemma buildSequelizeQuery_limit (opts : BuildQueryOptions) :
    (buildSequelizeQuery opts).limit =
      jmin (jmax (((opts.pagination.getD {}).pageSize).getD (.num 20)) (.num 1))
        (.num 200) := by
  simp only [buildSequelizeQuery]
  split <;> rfl

/-- C10: for every input intent whose `pagination.pageSize` is absent or
a non-NaN number, `buildSequelizeQuery` returns a plan whose `limit`
satisfies `1 ≤ limit ≤ 200`, in both offset and cursor modes, without
any validation and regardless of policy. -/
theorem compiler_limit_cap_C10 (opts : BuildQueryOptions)
    (h : opts.pagination.bind (fun p => p.pageSize) ≠ some JSNum.nan) :
    ∃ m : Int, (buildSequelizeQuery opts).limit = JSNum.num m ∧ 1 ≤ m ∧ m ≤ 200 := by
  rw [buildSequelizeQuery_limit]
  rw [opt_pageSize_eq] at h
  cases hps : (opts.pagination.getD {}).pageSize with
  | none => exact ⟨20, by simp [jmax, jmin], by omega, by omega⟩
  | some x =>
    cases x with
    | nan => exact absurd (hps ▸ rfl) (hps ▸ h)
    | num n =>
      refine ⟨min (max n 1) 200, by simp [jmax, jmin], by omega, by omega⟩

/-- Witness for C10 at a concrete oversized page size. -/
theorem compiler_limit_cap_C10_witness :
    ∃ m : Int,
      (buildSequelizeQuery
        { pagination := some { pageSize := some (.num 100000) } }).limit =
        JSNum.num m ∧ 1 ≤ m ∧ m ≤ 200 :=
  compiler_limit_cap_C10
    { pagination := some { pageSize := some (.num 100000) } } (by decide)

/-! ## Structural lemmas about the compiled where object -/

/-- Is an `Op.and` element a cursor comparison? -/
def isCursorItem : AndItem → Bool
  | .cursor _ _ _ => true
  | _ => false

/-- Is an `Op.and` element a raw predicate? -/
def isRawItem : AndItem → Bool
  | .raw _ => true
  | _ => false

/-- The cursor comparisons contained in a compiled plan's `Op.and`
array. -/
def planCursorItems (pl : QueryPlan) : List AndItem :=
  pl.whereQ.andList.filter isCursorItem

lemma applyEquals_andList (l : List (String × EqVal)) :
    ∀ w, (applyEquals w l).andList = w.andList := by
  induction l with
  | nil => intro w; rfl
  | cons e rest ih =>
    intro w
    obtain ⟨k, v⟩ := e
    cases v with
    | one p => cases p <;> simp [applyEquals, ih]
    | many ps => simp [applyEquals, ih]

lemma applyRange_andList (l : List (String × List (String × RVal))) :
    ∀ w, (applyRange w l).andList = w.andList := by
  induction l with
  | nil => intro w; rfl
  | cons e rest ih =>
    intro w
    obtain ⟨k, cfg⟩ := e
    simp only [applyRange]
    rw [ih]
    split <;> rfl

lemma applyContains_forall (P : AndItem → Prop) (u : Bool)
    (l : List (String × ContVal)) :
    ∀ w, (∀ i ∈ w.andList, P i) →
      (∀ e ∈ l, P (.orGroup (containsPieces e.1 u (contValues e.2)))) →
      ∀ i ∈ (applyContains u w l).andList, P i := by
  induction l with
  | nil => intro w hw _ i hi; exact hw i hi
  | cons e rest ih =>
    intro w hw hl i hi
    obtain ⟨k, v⟩ := e
    simp only [applyContains] at hi
    refine ih _ ?_ (fun e he => hl e (List.mem_cons_of_mem _ he)) i hi
    intro j hj
    split at hj
    · exact hw j hj
    · simp only [List.mem_append, List.mem_singleton] at hj
      rcases hj with hj | hj
      · exact hw j hj
      · subst hj; exact hl (k, v) (List.mem_cons_self _ _)

lemma equalsStage_andList (opts : BuildQueryOptions) (w : Where) :
    (equalsStage opts w).andList = w.andList := by
  unfold equalsStage
  cases opts.filters.bind fun f => f.equals with
  | none => rfl
  | some entries => exact applyEquals_andList entries w

lemma rangeStage_andList (opts : BuildQueryOptions) (w : Where) :
    (rangeStage opts w).andList = w.andList := by
  unfold rangeStage
  cases opts.filters.bind fun f => f.range with
  | none => rfl
  | some entries => exact applyRange_andList entries w

lemma containsStage_forall (P : AndItem → Prop) (opts : BuildQueryOptions)
    (w : Where) (hw : ∀ i ∈ w.andList, P i)
    (hl : ∀ e ∈ ((opts.filters.bind fun f => f.contains).getD []),
      P (.orGroup (containsPieces e.1 (useILikeOf opts) (contValues e.2)))) :
    ∀ i ∈ (containsStage opts w).andList, P i := by
  unfold containsStage
  cases h : opts.filters.bind fun f => f.contains with
  | none => exact hw
  | some entries =>
    exact applyContains_forall P (useILikeOf opts) entries w hw
      (by simpa [h] using hl)

lemma rawStage_mem (opts : BuildQueryOptions) (w : Where) :
    ∀ i ∈ (rawStage opts w).andList,
      i ∈ w.andList ∨
      ∃ r, (opts.filters.bind fun f => f.raw) = some r ∧ i = .raw r := by
  intro i hi
  unfold rawStage at hi
  cases h : opts.filters.bind fun f => f.raw with
  | none => rw [h] at hi; exact Or.inl hi
  | some r =>
    rw [h] at hi
    simp only [List.mem_append, List.mem_singleton] at hi
    rcases hi with hi | hi
    · exact Or.inl hi
    · exact Or.inr ⟨r, rfl, hi⟩

lemma searchStage_mem (opts : BuildQueryOptions) (w : Where) :
    ∀ i ∈ (searchStage opts w).andList,
      i ∈ w.andList ∨
      ∃ s, opts.search = some s ∧ i = .orGroup (searchLeaves opts s) := by
  intro i hi
  unfold searchStage at hi
  cases h : opts.search with
  | none => rw [h] at hi; exact Or.inl hi
  | some s =>
    rw [h] at hi
    have hi' : i ∈ (if (strTruthy s.q && !(s.columns.getD []).isEmpty) = true
        then { w with andList := w.andList ++ [AndItem.orGroup (searchLeaves opts s)] }
        else w).andList := hi
    by_cases hc : (strTruthy s.q && !(s.columns.getD []).isEmpty) = true
    · rw [if_pos hc] at hi'
      rcases List.mem_append.mp hi' with h2 | h2
      · exact Or.inl h2
      · exact Or.inr ⟨s, rfl, by simpa using h2⟩
    · rw [if_neg hc] at hi'
      exact Or.inl hi'

/-- Every element of the `Op.and` array built by the filters/search
sections is an OR-group coming from a `contains` entry, the pushed raw
predicate, or the free-text-search OR-group (never a cursor
comparison). -/
lemma compileWhere_andList (opts : BuildQueryOptions) :
    ∀ i ∈ (compileWhere opts).andList,
      (∃ e ∈ ((opts.filters.bind fun f => f.contains).getD []),
        i = .orGroup (containsPieces e.1 (useILikeOf opts) (contValues e.2))) ∨
      (∃ r, (opts.filters.bind fun f => f.raw) = some r ∧ i = .raw r) ∨
      (∃ s, opts.search = some s ∧ i = .orGroup (searchLeaves opts s)) := by
  intro i hi
  unfold compileWhere at hi
  rcases searchStage_mem opts _ i hi with hi | hs
  · rcases rawStage_mem opts _ i hi with hi | hr
    · rw [rangeStage_andList] at hi
      have hc := containsStage_forall
        (fun j => j ∈ (equalsStage opts {}).andList ∨
          ∃ e ∈ ((opts.filters.bind fun f => f.contains).getD []),
            j = .orGroup (containsPieces e.1 (useILikeOf opts) (contValues e.2)))
        opts (equalsStage opts {}) (fun j hj => Or.inl hj)
        (fun e he => Or.inr ⟨e, he, rfl⟩) i hi
      rcases hc with hc | hc
      · rw [equalsStage_andList] at hc
        exact absurd hc (List.not_mem_nil i)
      · exact Or.inl hc
    · exact Or.inr (Or.inl hr)
  · exact Or.inr (Or.inr hs)

lemma buildSequelizeQuery_order (opts : BuildQueryOptions) :
    (buildSequelizeQuery opts).order = compileOrder opts := by
  simp only [buildSequelizeQuery]
  split <;> rfl

lemma buildSequelizeQuery_cursorClause (opts : BuildQueryOptions)
    (hm : (opts.pagination.getD {}).mode = some "cursor") :
    (buildSequelizeQuery opts).cursorClause =
      cursorCC opts (opts.pagination.getD {}) := by
  simp only [buildSequelizeQuery]
  rw [if_pos hm]

lemma buildSequelizeQuery_cursor_andList (opts : BuildQueryOptions)
    (hm : (opts.pagination.getD {}).mode = some "cursor") :
    (buildSequelizeQuery opts).whereQ.andList =
      (compileWhere opts).andList ++
        (cursorCC opts (opts.pagination.getD {})).toList := by
  simp only [buildSequelizeQuery]
  rw [if_pos hm]
  cases cursorCC opts (opts.pagination.getD {}) <;> simp

lemma compileWhere_no_cursor (opts : BuildQueryOptions) :
    (compileWhere opts).andList.filter isCursorItem = [] := by
  rw [List.filter_eq_nil_iff]
  intro a ha
  rcases compileWhere_andList opts a ha with ⟨e, _, h⟩ | ⟨r, _, h⟩ | ⟨s, _, h⟩ <;>
    subst h <;> simp [isCursorItem]

/-- C3: cursor direction correctness.  In cursor mode with a supplied
cursor value, the plan carries exactly one cursor comparison, on the
field `cursorField ?? order[0][0]`, whose operator realizes the four
combinations asc+next→gt, asc+prev→lt, desc+next→lt, desc+prev→gt of
the effective first order entry's direction and the requested traversal
direction; without a supplied cursor value no cursor predicate is
added. -/
theorem cursor_direction_C3 (opts : BuildQueryOptions) (p : Pagination)
    (hp : opts.pagination = some p) (hm : p.mode = some "cursor")
    (f d : String) (rest : List OrderItem)
    (hord : (buildSequelizeQuery opts).order = (f, d) :: rest) :
    (∀ v : CursorVal, p.cursor = some v → v ≠ .str "" →
      ∃ c : CmpOp,
        (buildSequelizeQuery opts).cursorClause =
          some (.cursor (p.cursorField.getD f) c v) ∧
        planCursorItems (buildSequelizeQuery opts) =
          [.cursor (p.cursorField.getD f) c v] ∧
        (jsToUpper d ≠ "DESC" → (p.direction.getD "next") = "next" → c = .gt) ∧
        (jsToUpper d ≠ "DESC" → (p.direction.getD "next") ≠ "next" → c = .lt) ∧
        (jsToUpper d = "DESC" → (p.direction.getD "next") = "next" → c = .lt) ∧
        (jsToUpper d = "DESC" → (p.direction.getD "next") ≠ "next" → c = .gt)) ∧
    ((p.cursor = none ∨ p.cursor = some (.str "")) →
      (buildSequelizeQuery opts).cursorClause = none ∧
      planCursorItems (buildSequelizeQuery opts) = []) := by
  have hpd : opts.pagination.getD {} = p := by rw [hp]; rfl
  have hm' : (opts.pagination.getD {}).mode = some "cursor" := by rw [hpd]; exact hm
  have hordc : compileOrder opts = (f, d) :: rest := by
    rw [← buildSequelizeQuery_order]; exact hord
  have hfield : effectiveCursorField opts p = p.cursorField.getD f := by
    unfold effectiveCursorField
    rw [hordc]
  have hdesc : effectiveIsDesc opts = (jsToUpper d == "DESC") := by
    unfold effectiveIsDesc
    rw [hordc]
  constructor
  · intro v hv hne
    refine ⟨cursorCmp opts p, ?_, ?_, ?_, ?_, ?_, ?_⟩
    · rw [buildSequelizeQuery_cursorClause opts hm', hpd]
      unfold cursorCC
      rw [hv]
      simp [hne, hfield]
    · unfold planCursorItems
      rw [buildSequelizeQuery_cursor_andList opts hm', hpd]
      rw [List.filter_append, compileWhere_no_cursor]
      unfold cursorCC
      rw [hv]
      simp [hne, hfield, isCursorItem]
    · intro hd hnext
      unfold cursorCmp
      rw [hdesc]
      simp [hnext, bne_iff_ne, hd]
    · intro hd hnext
      unfold cursorCmp
      rw [hdesc]
      have : ¬((p.direction.getD "next") == "next") = true := by
        simpa using hnext
      simp [this, hd]
    · intro hd hnext
      unfold cursorCmp
      rw [hdesc]
      simp [hnext, hd]
    · intro hd hnext
      unfold cursorCmp
      rw [hdesc]
      have : ¬((p.direction.getD "next") == "next") = true := by
        simpa using hnext
      simp [this, hd]
  · intro hno
    have hcc : cursorCC opts (opts.pagination.getD {}) = none := by
      rw [hpd]
      unfold cursorCC
      rcases hno with h | h <;> rw [h] <;> simp
    refine ⟨?_, ?_⟩
    · rw [buildSequelizeQuery_cursorClause opts hm', hcc]
    · unfold planCursorItems
      rw [buildSequelizeQuery_cursor_andList opts hm', hcc,
        List.filter_append, compileWhere_no_cursor]
      rfl

/-- Witness for C3: with order `[["id","desc"]]` and cursor 50, a `next`
request compiles to `id < 50`. -/
theorem cursor_direction_C3_witness :
    (buildSequelizeQuery
      { pagination := some { mode := some "cursor", cursor := some (.num 50),
                             direction := some "next" },
        sort := some { sortBy := some "id", sortDir := some "desc" } }).cursorClause =
      some (AndItem.cursor "id" CmpOp.lt (CursorVal.num 50)) := by
  obtain ⟨h1, -⟩ := cursor_direction_C3
    { pagination := some { mode := some "cursor", cursor := some (.num 50),
                           direction := some "next" },
      sort := some { sortBy := some "id", sortDir := some "desc" } }
    { mode := some "cursor", cursor := some (.num 50), direction := some "next" }
    rfl rfl "id" "DESC" [] (by decide)
  obtain ⟨c, hcc, -, -, -, h5, -⟩ := h1 (CursorVal.num 50) rfl (by decide)
  have hc : c = CmpOp.lt := h5 (by decide) (by decide)
  rw [hcc, hc]
  rfl

/-! ## The throw-or-return boundary of the validator -/

lemma validateQueryParams_eq_ok (opts : BuildQueryOptions) (cfg : ValidateFields)
    (h : (validateCore opts cfg).2 = []) :
    validateQueryParams opts cfg = .ok (validateCore opts cfg).1 := by
  unfold validateQueryParams
  rw [if_pos (by rw [h]; rfl)]

lemma validateQueryParams_eq_error (opts : BuildQueryOptions) (cfg : ValidateFields)
    (h : (validateCore opts cfg).2 ≠ []) :
    validateQueryParams opts cfg = .error
      { message := "Failed to validate request: " ++ joinSep "; " (validateCore opts cfg).2,
        statusCode := 400 } := by
  unfold validateQueryParams
  rw [if_neg]
  intro hc
  exact h (List.isEmpty_iff.mp hc)

lemma validateQueryParams_ok (opts : BuildQueryOptions) (cfg : ValidateFields)
    (s : BuildQueryOptions) (h : validateQueryParams opts cfg = .ok s) :
    (validateCore opts cfg).2 = [] ∧ s = (validateCore opts cfg).1 := by
  simp only [validateQueryParams] at h
  split at h
  · next he =>
    injection h with h
    exact ⟨List.isEmpty_iff.mp he, h.symm⟩
  · exact absurd h (by simp)

/-- C6: `validateQueryParams` throws exactly when at least one rule
violation was recorded; the single error carries status 400 and a
message joining every violation of the pass. -/
theorem aggregated_validation_error_C6 (opts : BuildQueryOptions)
    (cfg : ValidateFields) :
    ((validateCore opts cfg).2 = [] →
      validateQueryParams opts cfg = .ok (validateCore opts cfg).1) ∧
    ((validateCore opts cfg).2 ≠ [] →
      validateQueryParams opts cfg = .error
        { message :=
            "Failed to validate request: " ++ joinSep "; " (validateCore opts cfg).2,
          statusCode := 400 }) :=
  ⟨validateQueryParams_eq_ok opts cfg, validateQueryParams_eq_error opts cfg⟩

/-- Witness for C6: an intent with three distinct violations produces a
single 400 error listing all three, joined. -/
theorem aggregated_validation_error_C6_witness :
    validateQueryParams
      { sort := some { sortBy := some "hack", sortDir := some "sideways" },
        filters := some { equals := some [("secret", .one (.str "x"))] } }
      { sortColumns := some ["title"],
        filters := some [{ field := "userId", allow := { equals := some true } }] } =
      .error
        { message := "Failed to validate request: Invalid sort column: hack; Invalid sort direction: sideways; Filtering not allowed on field \"secret\" with operator \"equals\"",
          statusCode := 400 } :=
  (aggregated_validation_error_C6
    { sort := some { sortBy := some "hack", sortDir := some "sideways" },
      filters := some { equals := some [("secret", .one (.str "x"))] } }
    { sortColumns := some ["title"],
      filters := some [{ field := "userId", allow := { equals := some true } }] }).2
    (by decide)

/-! ## C5: pagination clamping -/

lemma sanitizePagination_some (p0 : Pagination) (lo hi : Int) :
    sanitizePagination (some p0) lo hi = (if p0.mode = some "cursor" then some { p0 with pageSize := some (clamp (p0.pageSize.getD (.num 20)) lo hi) } else some { p0 with page := some (jmax (p0.page.getD (.num 1)) (.num 1)), pageSize := some (clamp (p0.pageSize.getD (.num 20)) lo hi) }) := rfl

/-- C5 (amended): pagination never contributes violations (the recorded
violation list is independent of the intent's pagination), and — for a
policy whose effective bounds satisfy `min ≤ max` and an intent whose
`page`/`pageSize` are not NaN — the validated result satisfies
`minPageSize ≤ pageSize ≤ maxPageSize` in both modes and `page ≥ 1` in
offset mode. -/
theorem pagination_clamping_C5 (opts : BuildQueryOptions) (cfg : ValidateFields)
    (hb : cfg.minPageSize.getD 1 ≤ cfg.maxPageSize.getD 200)
    (hnn : ∀ p, opts.pagination = some p →
      p.pageSize ≠ some JSNum.nan ∧ p.page ≠ some JSNum.nan) :
    (validateCore opts cfg).2 = (validateCore { opts with pagination := none } cfg).2 ∧
    (∀ s p, validateQueryParams opts cfg = .ok s → s.pagination = some p →
      (∃ n : Int, p.pageSize = some (.num n) ∧
        cfg.minPageSize.getD 1 ≤ n ∧ n ≤ cfg.maxPageSize.getD 200) ∧
      (p.mode ≠ some "cursor" → ∃ m : Int, p.page = some (.num m) ∧ 1 ≤ m)) := by
  constructor
  · rfl
  · intro s p hok hp
    obtain ⟨-, hs⟩ := validateQueryParams_ok opts cfg s hok
    subst hs
    have hsp : (validateCore opts cfg).1.pagination =
        sanitizePagination opts.pagination (cfg.minPageSize.getD 1)
          (cfg.maxPageSize.getD 200) := rfl
    rw [hsp] at hp
    cases hp0 : opts.pagination with
    | none => rw [hp0] at hp; exact absurd hp (by simp [sanitizePagination])
    | some p0 =>
      rw [hp0] at hp
      obtain ⟨hps, hpg⟩ := hnn p0 hp0
      have hx : ∃ k : Int, p0.pageSize.getD (.num 20) = .num k := by
        cases hpsv : p0.pageSize with
        | none => exact ⟨20, rfl⟩
        | some x =>
          cases x with
          | nan => exact absurd hpsv hps
          | num k => exact ⟨k, rfl⟩
      obtain ⟨k, hk⟩ := hx
      unfold sanitizePagination at hp
      have hp' : (if p0.mode = some "cursor" then some { p0 with pageSize := some (clamp (p0.pageSize.getD (.num 20)) (cfg.minPageSize.getD 1) (cfg.maxPageSize.getD 200)) } else some { p0 with page := some (jmax (p0.page.getD (.num 1)) (.num 1)), pageSize := some (clamp (p0.pageSize.getD (.num 20)) (cfg.minPageSize.getD 1) (cfg.maxPageSize.getD 200)) }) = some p := hp
      clear hp
      by_cases hmode : p0.mode = some "cursor"
      · rw [if_pos hmode] at hp'
        injection hp' with hp
        subst hp
        constructor
        · refine ⟨max (cfg.minPageSize.getD 1) (min (cfg.maxPageSize.getD 200) k),
            ?_, ?_, ?_⟩
          · simp [clamp, hk, jmin, jmax]
          · omega
          · omega
        · intro hmm
          exact absurd hmode hmm
      · rw [if_neg hmode] at hp'
        injection hp' with hp
        subst hp
        have hy : ∃ j : Int, p0.page.getD (.num 1) = .num j := by
          cases hpgv : p0.page with
          | none => exact ⟨1, rfl⟩
          | some y =>
            cases y with
            | nan => exact absurd hpgv hpg
            | num j => exact ⟨j, rfl⟩
        obtain ⟨j, hj⟩ := hy
        constructor
        · refine ⟨max (cfg.minPageSize.getD 1) (min (cfg.maxPageSize.getD 200) k),
            ?_, ?_, ?_⟩
          · simp [clamp, hk, jmin, jmax]
          · omega
          · omega
        · intro _
          exact ⟨max j 1, by simp [hj, jmax], by omega⟩

/-- Counterexample to C5 as stated: with a policy whose
`minPageSize = 5` exceeds its `maxPageSize = 3`, validation succeeds and
the resulting `pageSize` is 5, violating `pageSize ≤ maxPageSize`. -/
theorem pagination_clamping_C5_counterexample :
    validateQueryParams
        { pagination := some { mode := some "offset", pageSize := some (.num 4) } }
        { minPageSize := some 5, maxPageSize := some 3 } =
      .ok { pagination := some { mode := some "offset", page := some (.num 1),
                                 pageSize := some (.num 5) } } ∧
    ¬((5 : Int) ≤ 3) := by
  exact ⟨by rfl, by decide⟩

/-- Witness for C5 at the spec's end-to-end scenario 2 (page 0,
pageSize 9999, bounds [1,100]). -/
theorem pagination_clamping_C5_witness :
    ((validateCore
        { pagination := some { mode := some "offset", page := some (.num 0),
                               pageSize := some (.num 9999) } }
        { minPageSize := some 1, maxPageSize := some 100 }).2 =
      (validateCore ({} : BuildQueryOptions)
        { minPageSize := some 1, maxPageSize := some 100 }).2) ∧
    ((∃ n : Int,
        ({ mode := some "offset", page := some (JSNum.num 1),
           pageSize := some (JSNum.num 100) } : Pagination).pageSize =
          some (.num n) ∧
        ({ minPageSize := some 1,
           maxPageSize := some 100 } : ValidateFields).minPageSize.getD 1 ≤ n ∧
        n ≤ ({ minPageSize := some 1,
               maxPageSize := some 100 } : ValidateFields).maxPageSize.getD 200) ∧
      (({ mode := some "offset", page := some (JSNum.num 1),
          pageSize := some (JSNum.num 100) } : Pagination).mode ≠ some "cursor" →
        ∃ m : Int,
          ({ mode := some "offset", page := some (JSNum.num 1),
             pageSize := some (JSNum.num 100) } : Pagination).page =
            some (.num m) ∧ 1 ≤ m)) := by
  obtain ⟨h1, h2⟩ := pagination_clamping_C5
    { pagination := some { mode := some "offset", page := some (.num 0),
                           pageSize := some (.num 9999) } }
    { minPageSize := some 1, maxPageSize := some 100 }
    (by decide)
    (by intro p hp; injection hp with hp; subst hp; exact ⟨by decide, by decide⟩)
  exact ⟨h1, h2 _ _ (by rfl) (by rfl)⟩

/-! ## C8: offset pagination arithmetic -/

lemma buildSequelizeQuery_offset_branch (opts : BuildQueryOptions)
    (hm : (opts.pagination.getD {}).mode ≠ some "cursor") :
    (buildSequelizeQuery opts).limit =
      jmin (jmax ((opts.pagination.getD {}).pageSize.getD (.num 20)) (.num 1))
        (.num 200) ∧
    (buildSequelizeQuery opts).offset =
      some (jmul
        (jsub (jmax ((opts.pagination.getD {}).page.getD (.num 1)) (.num 1)) (.num 1))
        (jmin (jmax ((opts.pagination.getD {}).pageSize.getD (.num 20)) (.num 1))
          (.num 200))) := by
  simp only [buildSequelizeQuery]
  rw [if_neg hm]
  exact ⟨rfl, rfl⟩

/-- C8 (amended): for every validated intent in offset mode, provided
the policy's effective page-size bounds lie inside the compiler's hard
[1,200] cap (as the defaults do), the plan has `limit = pageSize` and
`offset = (page - 1) * pageSize`, where `page`/`pageSize` are the
validated values. -/
theorem offset_arithmetic_C8 (opts : BuildQueryOptions) (cfg : ValidateFields)
    (s : BuildQueryOptions) (p : Pagination)
    (hok : validateQueryParams opts cfg = .ok s)
    (hp : s.pagination = some p) (hm : p.mode ≠ some "cursor")
    (hb1 : 1 ≤ cfg.minPageSize.getD 1) (hb2 : cfg.minPageSize.getD 1 ≤ 200)
    (hb3 : cfg.maxPageSize.getD 200 ≤ 200) :
    ∃ ps pg : JSNum, p.pageSize = some ps ∧ p.page = some pg ∧
      (buildSequelizeQuery s).limit = ps ∧
      (buildSequelizeQuery s).offset = some (jmul (jsub pg (.num 1)) ps) := by
  obtain ⟨-, hs⟩ := validateQueryParams_ok opts cfg s hok
  subst hs
  have hsp : (validateCore opts cfg).1.pagination =
      sanitizePagination opts.pagination (cfg.minPageSize.getD 1)
        (cfg.maxPageSize.getD 200) := rfl
  rw [hsp] at hp
  cases hp0 : opts.pagination with
  | none => rw [hp0] at hp; exact absurd hp (by simp [sanitizePagination])
  | some p0 =>
    rw [hp0] at hp
    unfold sanitizePagination at hp
    have hp' : (if p0.mode = some "cursor" then some { p0 with pageSize := some (clamp (p0.pageSize.getD (.num 20)) (cfg.minPageSize.getD 1) (cfg.maxPageSize.getD 200)) } else some { p0 with page := some (jmax (p0.page.getD (.num 1)) (.num 1)), pageSize := some (clamp (p0.pageSize.getD (.num 20)) (cfg.minPageSize.getD 1) (cfg.maxPageSize.getD 200)) }) = some p := hp
    clear hp
    by_cases hmode : p0.mode = some "cursor"
    · rw [if_pos hmode] at hp'
      injection hp' with hp'
      subst hp'
      exact absurd hmode hm
    · rw [if_neg hmode] at hp'
      injection hp' with hp'
      subst hp'
      set PS := clamp (p0.pageSize.getD (.num 20)) (cfg.minPageSize.getD 1)
        (cfg.maxPageSize.getD 200) with hPS
      set PG := jmax (p0.page.getD (.num 1)) (.num 1) with hPG
      have hsan : sanitizePagination (some p0) (cfg.minPageSize.getD 1) (cfg.maxPageSize.getD 200) = some { p0 with page := some PG, pageSize := some PS } := by
        rw [sanitizePagination_some, if_neg hmode]
      have hmode' : ((validateCore opts cfg).1.pagination.getD {}).mode ≠ some "cursor" := by
        rw [hsp, hp0, hsan]
        simp only [Option.getD_some]
        exact hmode
      obtain ⟨hlim, hoff⟩ := buildSequelizeQuery_offset_branch _ hmode'
      have hpag : ((validateCore opts cfg).1.pagination.getD {}) = { p0 with page := some PG, pageSize := some PS } := by
        rw [hsp, hp0, hsan]
        rfl
      rw [hpag] at hlim hoff
      have hclamp : jmin (jmax PS (.num 1)) (.num 200) = PS := by
        rw [hPS]
        cases p0.pageSize.getD (.num 20) with
        | nan => rfl
        | num n => simp only [clamp, jmin, jmax]; congr 1; omega
      have hpage : jmax PG (.num 1) = PG := jmax_one_idem _
      refine ⟨PS, PG, rfl, rfl, ?_, ?_⟩
      · rw [hlim]
        show jmin (jmax PS (.num 1)) (.num 200) = PS
        exact hclamp
      · rw [hoff]
        show some (jmul (jsub (jmax PG (.num 1)) (.num 1))
          (jmin (jmax PS (.num 1)) (.num 200))) = some (jmul (jsub PG (.num 1)) PS)
        rw [hpage, hclamp]

/-- Counterexample to C8 as stated: with `maxPageSize = 500` the intent
`pageSize = 300` validates unchanged, but the compiled limit is the
hard-capped 200, not the validated pageSize 300. -/
theorem offset_arithmetic_C8_counterexample :
    validateQueryParams
        { pagination := some { mode := some "offset", page := some (.num 2),
                               pageSize := some (.num 300) } }
        { maxPageSize := some 500 } =
      .ok { pagination := some { mode := some "offset", page := some (.num 2),
                                 pageSize := some (.num 300) } } ∧
    (buildSequelizeQuery
      { pagination := some { mode := some "offset", page := some (.num 2),
                             pageSize := some (.num 300) } }).limit = .num 200 ∧
    JSNum.num 200 ≠ JSNum.num 300 := by
  exact ⟨by rfl, by decide, by decide⟩

/-- Witness for C8: page 3, pageSize 50 under the default bounds. -/
theorem offset_arithmetic_C8_witness :
    ∃ ps pg : JSNum,
      ({ mode := some "offset", page := some (.num 3),
         pageSize := some (.num 50) } : Pagination).pageSize = some ps ∧
      ({ mode := some "offset", page := some (.num 3),
         pageSize := some (.num 50) } : Pagination).page = some pg ∧
      (buildSequelizeQuery
        { pagination := some { mode := some "offset", page := some (.num 3),
                               pageSize := some (.num 50) } }).limit = ps ∧
      (buildSequelizeQuery
        { pagination := some { mode := some "offset", page := some (.num 3),
                               pageSize := some (.num 50) } }).offset =
        some (jmul (jsub pg (.num 1)) ps) :=
  offset_arithmetic_C8
    { pagination := some { mode := some "offset", page := some (.num 3),
                           pageSize := some (.num 50) } }
    {}
    { pagination := some { mode := some "offset", page := some (.num 3),
                           pageSize := some (.num 50) } }
    { mode := some "offset", page := some (.num 3), pageSize := some (.num 50) }
    (by rfl) (by rfl) (by decide) (by decide) (by decide) (by decide)

/-! ## C2: raw filter stripping -/

lemma sanitizeFilters_raw_getD (fs : Option FilterConfig) (cfg : ValidateFields) :
    ((sanitizeFilters fs cfg).1.getD {}).raw = none := by
  simp only [sanitizeFilters]
  repeat' split
  all_goals rfl

lemma sanitizeFilters_raw_none (fs : Option FilterConfig) (cfg : ValidateFields) :
    ∀ f', (sanitizeFilters fs cfg).1 = some f' → f'.raw = none := by
  intro f' h
  have hg := sanitizeFilters_raw_getD fs cfg
  rw [h] at hg
  simpa using hg

lemma buildSequelizeQuery_offset_andList (opts : BuildQueryOptions)
    (hm : (opts.pagination.getD {}).mode ≠ some "cursor") :
    (buildSequelizeQuery opts).whereQ.andList = (compileWhere opts).andList := by
  simp only [buildSequelizeQuery]
  rw [if_neg hm]

lemma buildSequelizeQuery_offset_cursorClause (opts : BuildQueryOptions)
    (hm : (opts.pagination.getD {}).mode ≠ some "cursor") :
    (buildSequelizeQuery opts).cursorClause = none := by
  simp only [buildSequelizeQuery]
  rw [if_neg hm]

lemma cursorCC_shape (opts : BuildQueryOptions) (p : Pagination) :
    ∀ x, cursorCC opts p = some x →
      ∃ fl c v, x = AndItem.cursor fl c v := by
  intro x h
  unfold cursorCC at h
  split at h
  · split at h
    · exact absurd h (by simp)
    · injection h with h
      exact ⟨_, _, _, h.symm⟩
  · exact absurd h (by simp)

lemma compileWhere_no_raw (opts : BuildQueryOptions)
    (hraw : (opts.filters.bind fun f => f.raw) = none) :
    ∀ i ∈ (compileWhere opts).andList, isRawItem i = false := by
  intro i hi
  rcases compileWhere_andList opts i hi with ⟨e, _, h⟩ | ⟨r, hr, h⟩ | ⟨s, _, h⟩
  · subst h; rfl
  · rw [hraw] at hr; exact absurd hr (by simp)
  · subst h; rfl

/-- C2: for every intent whose filters contain a `raw` entry (and any
policy), a successful validation returns a sanitized intent without
`raw`, and the plan compiled from that sanitized intent contains no
trace of the raw predicate. -/
theorem raw_filter_stripping_C2 (opts : BuildQueryOptions) (cfg : ValidateFields)
    (f : FilterConfig) (r : RawWhere) (s : BuildQueryOptions)
    (hf : opts.filters = some f) (hr : f.raw = some r)
    (hok : validateQueryParams opts cfg = .ok s) :
    (s.filters = none ∨ ∃ f', s.filters = some f' ∧ f'.raw = none) ∧
    (∀ i ∈ (buildSequelizeQuery s).whereQ.andList, isRawItem i = false) ∧
    (∀ w : RawWhere, (buildSequelizeQuery s).cursorClause ≠ some (.raw w)) := by
  obtain ⟨-, hs⟩ := validateQueryParams_ok opts cfg s hok
  subst hs
  have hsf : (validateCore opts cfg).1.filters =
      (sanitizeFilters (opts.filters.map jsonCopyFilters) cfg).1 := rfl
  have hnone : (validateCore opts cfg).1.filters.bind (fun g => g.raw) = none := by
    rw [hsf]
    cases hv : (sanitizeFilters (opts.filters.map jsonCopyFilters) cfg).1 with
    | none => rfl
    | some f' =>
      have := sanitizeFilters_raw_none (opts.filters.map jsonCopyFilters) cfg f' hv
      simp [this]
  refine ⟨?_, ?_, ?_⟩
  · rw [hsf]
    cases hv : (sanitizeFilters (opts.filters.map jsonCopyFilters) cfg).1 with
    | none => exact Or.inl rfl
    | some f' =>
      exact Or.inr ⟨f', rfl,
        sanitizeFilters_raw_none (opts.filters.map jsonCopyFilters) cfg f' hv⟩
  · intro i hi
    by_cases hmode : (((validateCore opts cfg).1.pagination.getD {}).mode = some "cursor")
    · rw [buildSequelizeQuery_cursor_andList _ hmode] at hi
      rcases List.mem_append.mp hi with hi | hi
      · exact compileWhere_no_raw _ hnone i hi
      · cases hcc : cursorCC (validateCore opts cfg).1
            ((validateCore opts cfg).1.pagination.getD {}) with
        | none => rw [hcc] at hi; exact absurd hi (by simp)
        | some x =>
          rw [hcc] at hi
          simp only [Option.toList_some, List.mem_singleton] at hi
          subst hi
          obtain ⟨fl, c, v, hx⟩ := cursorCC_shape _ _ _ hcc
          subst hx
          rfl
    · rw [buildSequelizeQuery_offset_andList _ hmode] at hi
      exact compileWhere_no_raw _ hnone i hi
  · intro w
    by_cases hmode : (((validateCore opts cfg).1.pagination.getD {}).mode = some "cursor")
    · rw [buildSequelizeQuery_cursorClause _ hmode]
      intro hcc
      obtain ⟨fl, c, v, hx⟩ := cursorCC_shape _ _ _ hcc
      exact absurd hx (by simp)
    · rw [buildSequelizeQuery_offset_cursorClause _ hmode]
      simp

/-- Witness for C2: a raw predicate supplied alongside an allowed
equals filter is stripped and absent from the compiled plan. -/
theorem raw_filter_stripping_C2_witness :
    (({ filters := some { equals := some [("userId", .one (.str "3"))] } } :
        BuildQueryOptions).filters = none ∨
      ∃ f', ({ filters := some { equals := some [("userId", .one (.str "3"))] } } :
        BuildQueryOptions).filters = some f' ∧ f'.raw = none) ∧
    (∀ i ∈ (buildSequelizeQuery
        { filters := some { equals := some [("userId", .one (.str "3"))] } }).whereQ.andList,
      isRawItem i = false) ∧
    (∀ w : RawWhere,
      (buildSequelizeQuery
        { filters := some { equals := some [("userId", .one (.str "3"))] } }).cursorClause ≠
        some (.raw w)) :=
  raw_filter_stripping_C2
    { filters := some { raw := some "1=1",
                        equals := some [("userId", .one (.str "3"))] } }
    { filters := some [{ field := "userId", allow := { equals := some true } }] }
    { raw := some "1=1", equals := some [("userId", .one (.str "3"))] }
    "1=1"
    { filters := some { equals := some [("userId", .one (.str "3"))] } }
    rfl rfl (by rfl)

/-! ## C9: parser between-splitting -/

lemma splitCommaAux_ne_nil (cs : List Char) : ∀ acc, splitCommaAux cs acc ≠ [] := by
  induction cs with
  | nil => intro acc; simp [splitCommaAux]
  | cons c rest ih =>
    intro acc
    unfold splitCommaAux
    split
    · simp
    · exact ih _

lemma splitComma_ne_nil (v : String) : splitComma v ≠ [] :=
  splitCommaAux_ne_nil v.data []

lemma between_key_rev (f : String) :
    (f ++ "[between]").data.reverse =
      (']' :: 'n' :: 'e' :: 'e' :: 'w' :: 't' :: 'e' :: 'b' :: '[' :: []) ++
        f.data.reverse := by
  show (f.data ++ ('[' :: 'b' :: 'e' :: 't' :: 'w' :: 'e' :: 'e' :: 'n' :: ']' :: [])).reverse = _
  rw [List.reverse_append]
  rfl

lemma between_key_ne (f t : String) (hlast : t.data.reverse.head? ≠ some ']') :
    f ++ "[between]" ≠ t := by
  intro h
  apply hlast
  rw [← h, between_key_rev f]
  rfl

lemma between_key_not_reserved (f : String) :
    reservedKeys.contains (f ++ "[between]") = false := by
  rw [Bool.eq_false_iff]
  intro hc
  have hm : (f ++ "[between]") ∈ reservedKeys := List.mem_of_elem_eq_true hc
  simp only [reservedKeys, List.mem_cons, List.not_mem_nil, or_false] at hm
  rcases hm with h | h | h | h | h | h | h | h | h <;>
    exact between_key_ne f _ (by decide) h

lemma matchOpKey_between (f : String) (hf : f ≠ "") :
    matchOpKey (f ++ "[between]") = some (f, "between") := by
  have hrev := between_key_rev f
  have hlen : (f ++ "[between]").data.length = f.data.length + 9 := by
    show (f.data ++ ('[' :: 'b' :: 'e' :: 't' :: 'w' :: 'e' :: 'e' :: 'n' :: ']' :: [])).length = _
    rw [List.length_append]
    rfl
  have hfne : f.data ≠ [] := by
    intro h
    apply hf
    cases f
    simp only at h
    rw [h]
  have hflen : 0 < f.data.length := List.length_pos.mpr hfne
  have e1 : strEndsWith (f ++ "[between]") ("[" ++ "gte" ++ "]") = false := by
    unfold strEndsWith
    rw [hrev]
    rfl
  have e2 : strEndsWith (f ++ "[between]") ("[" ++ "lte" ++ "]") = false := by
    unfold strEndsWith
    rw [hrev]
    rfl
  have e3 : strEndsWith (f ++ "[between]") ("[" ++ "gt" ++ "]") = false := by
    unfold strEndsWith
    rw [hrev]
    rfl
  have e4 : strEndsWith (f ++ "[between]") ("[" ++ "lt" ++ "]") = false := by
    unfold strEndsWith
    rw [hrev]
    rfl
  have e5 : strEndsWith (f ++ "[between]") ("[" ++ "between" ++ "]") = true := by
    unfold strEndsWith
    rw [hrev]
    show List.isPrefixOf (']' :: 'n' :: 'e' :: 'e' :: 'w' :: 't' :: 'e' :: 'b' :: '[' :: []) ((']' :: 'n' :: 'e' :: 'e' :: 'w' :: 't' :: 'e' :: 'b' :: '[' :: []) ++ f.data.reverse) = true
    simp [List.isPrefixOf]
  have h1 : opSuffixMatch (f ++ "[between]") "gte" = none := by
    show (if strEndsWith (f ++ "[between]") ("[" ++ "gte" ++ "]") && ("[" ++ "gte" ++ "]").data.length < (f ++ "[between]").data.length then some (strDropRight (f ++ "[between]") ("[" ++ "gte" ++ "]").data.length, "gte") else none) = none
    rw [e1]
    rfl
  have h2 : opSuffixMatch (f ++ "[between]") "lte" = none := by
    show (if strEndsWith (f ++ "[between]") ("[" ++ "lte" ++ "]") && ("[" ++ "lte" ++ "]").data.length < (f ++ "[between]").data.length then some (strDropRight (f ++ "[between]") ("[" ++ "lte" ++ "]").data.length, "lte") else none) = none
    rw [e2]
    rfl
  have h3 : opSuffixMatch (f ++ "[between]") "gt" = none := by
    show (if strEndsWith (f ++ "[between]") ("[" ++ "gt" ++ "]") && ("[" ++ "gt" ++ "]").data.length < (f ++ "[between]").data.length then some (strDropRight (f ++ "[between]") ("[" ++ "gt" ++ "]").data.length, "gt") else none) = none
    rw [e3]
    rfl
  have h4 : opSuffixMatch (f ++ "[between]") "lt" = none := by
    show (if strEndsWith (f ++ "[between]") ("[" ++ "lt" ++ "]") && ("[" ++ "lt" ++ "]").data.length < (f ++ "[between]").data.length then some (strDropRight (f ++ "[between]") ("[" ++ "lt" ++ "]").data.length, "lt") else none) = none
    rw [e4]
    rfl
  have hdr : strDropRight (f ++ "[between]") 9 = f := by
    unfold strDropRight
    rw [hlen]
    have h9 : f.data.length + 9 - 9 = f.data.length := by omega
    show String.mk ((f.data ++ ('[' :: 'b' :: 'e' :: 't' :: 'w' :: 'e' :: 'e' :: 'n' :: ']' :: [])).take (f.data.length + 9 - 9)) = f
    rw [h9, List.take_left]
  have hlt : ("[" ++ "between" ++ "]").data.length < (f ++ "[between]").data.length := by
    rw [hlen]
    show 9 < f.data.length + 9
    omega
  have h5 : opSuffixMatch (f ++ "[between]") "between" = some (f, "between") := by
    show (if strEndsWith (f ++ "[between]") ("[" ++ "between" ++ "]") && ("[" ++ "between" ++ "]").data.length < (f ++ "[between]").data.length then some (strDropRight (f ++ "[between]") ("[" ++ "between" ++ "]").data.length, "between") else none) = some (f, "between")
    rw [e5, Bool.true_and, decide_eq_true hlt, if_pos rfl]
    rw [show strDropRight (f ++ "[between]") ("[" ++ "between" ++ "]").data.length = f from hdr]
  unfold matchOpKey
  rw [h1, h2, h3, h4, h5]
  rfl

/-- C9 (amended): a query key of the form `field[between]=value` is
stored as that field's `between` range holding `String(value).split(",")`
— one raw string per comma-separated segment (one or more pieces, not
always exactly two; the two-element arity is enforced later by
`validateQueryParams`). -/
theorem parser_between_split_C9 (f v : String) (hf : f ≠ "") :
    (parseQueryFromRequest [(f ++ "[between]", v)]).filters =
      some { equals := some [],
             range := some [(f, [("between", RVal.arr ((splitComma v).map Prim.str))])],
             contains := none, raw := none } ∧
    splitComma v ≠ [] := by
  refine ⟨?_, splitComma_ne_nil v⟩
  have hres := between_key_not_reserved f
  have hmk := matchOpKey_between f hf
  simp only [parseQueryFromRequest, List.filter, hres, Bool.not_false, List.foldl,
    bucketStep, hmk]
  simp only [setKey, List.any_nil, Bool.false_eq_true, if_false, List.nil_append,
    reduceIte]
  simp [List.isEmpty]

/-- Counterexample to C9 as stated: `d[between]=1,2,3` is stored as
three raw strings, not exactly two. -/
theorem parser_between_split_C9_counterexample :
    (parseQueryFromRequest [("d[between]", "1,2,3")]).filters =
      some { equals := some [],
             range := some [("d", [("between",
               RVal.arr [Prim.str "1", Prim.str "2", Prim.str "3"])])],
             contains := none, raw := none } ∧
    [Prim.str "1", Prim.str "2", Prim.str "3"].length ≠ 2 := by
  exact ⟨by decide, by decide⟩

/-- Witness for C9 at `d[between]=1,2` (one comma, hence two pieces). -/
theorem parser_between_split_C9_witness :
    ((parseQueryFromRequest [("d" ++ "[between]", "1,2")]).filters =
      some { equals := some [],
             range := some [("d", [("between",
               RVal.arr ((splitComma "1,2").map Prim.str))])],
             contains := none, raw := none } ∧
    splitComma "1,2" ≠ []) :=
  parser_between_split_C9 "d" "1,2" (by decide)

/-! ## C1: allowlist soundness -/

lemma sanitizeFilters_none_cfg (f : FilterConfig) (cfg : ValidateFields)
    (hcf : cfg.filters = none) : sanitizeFilters (some f) cfg = (none, []) := by
  unfold sanitizeFilters
  rw [hcf]

lemma sanitizeFilters_eq (f : FilterConfig) (cfg : ValidateFields)
    (rules : List FilterRule) (hcf : cfg.filters = some rules) :
    sanitizeFilters (some f) cfg =
      (if rules.isEmpty then ((none : Option FilterConfig), ([] : List String))
       else
         (if (sanitizeEqualsBucket rules f.equals).1.isNone ∧
             (sanitizeContainsBucket rules f.contains).1.isNone ∧
             (sanitizeRangeBucket rules f.range).1.isNone
          then (none,
            (sanitizeEqualsBucket rules f.equals).2 ++
              (sanitizeContainsBucket rules f.contains).2 ++
              (sanitizeRangeBucket rules f.range).2)
          else (some ⟨(sanitizeEqualsBucket rules f.equals).1,
                      (sanitizeContainsBucket rules f.contains).1,
                      (sanitizeRangeBucket rules f.range).1, none⟩,
            (sanitizeEqualsBucket rules f.equals).2 ++
              (sanitizeContainsBucket rules f.contains).2 ++
              (sanitizeRangeBucket rules f.range).2))) := by
  unfold sanitizeFilters
  rw [hcf]

lemma sanitizeSearch_some_eq (s : Search) (cfg : ValidateFields) :
    sanitizeSearch (some s) cfg =
      (if strTruthy s.q then
        match cfg.searchColumns with
        | none => (some { s with columns := some [] }, [])
        | some sc =>
          if sc.isEmpty then (some { s with columns := some [] }, [])
          else
            if (s.columns.getD []).isEmpty then (some { s with columns := some sc }, [])
            else
              (some { s with columns := some ((s.columns.getD []).filter fun c => sc.contains c) },
               if ((s.columns.getD []).filter fun c => !sc.contains c).isEmpty then []
               else ["Invalid search columns: " ++ joinSep ", " ((s.columns.getD []).filter fun c => !sc.contains c)])
      else ((none : Option Search), ([] : List String))) := rfl

lemma sanitizeSort_some_eq (s : SortOpt) (cfg : ValidateFields) :
    sanitizeSort (some s) cfg =
      (some { s with sortDir := (sortDirResult s cfg).1, allowlist := none },
       sortByErrors s cfg ++ (sortDirResult s cfg).2) := rfl

lemma validateCore_errors (opts : BuildQueryOptions) (cfg : ValidateFields) :
    (validateCore opts cfg).2 =
      (sanitizeSort opts.sort cfg).2 ++ (sanitizeSearch opts.search cfg).2 ++
        (sanitizeFilters (opts.filters.map jsonCopyFilters) cfg).2 := rfl

lemma processEqualsEntry_nil (rules : List FilterRule) (field : String) (val : EqVal)
    (h : (processEqualsEntry rules field val).2 = []) :
    processEqualsEntry rules field val = (true, []) := by
  unfold processEqualsEntry at h ⊢
  split at h
  · exact absurd h (by simp)
  · next r heq =>
    by_cases hc : r.allow.equals.getD false = false
    · rw [if_pos hc] at h
      exact absurd h (by simp)
    · rw [if_neg hc] at h ⊢
      exact Prod.ext rfl h

lemma processEquals_nil (rules : List FilterRule) (l : List (String × EqVal))
    (h : (processEquals rules l).2 = []) : processEquals rules l = (l, []) := by
  induction l with
  | nil => rfl
  | cons x rest ih =>
    obtain ⟨fld, val⟩ := x
    have h' : (processEqualsEntry rules fld val).2 ++ (processEquals rules rest).2 = [] := h
    obtain ⟨h1, h2⟩ := List.append_eq_nil.mp h'
    have he := processEqualsEntry_nil rules fld val h1
    show ((if (processEqualsEntry rules fld val).1 then [(fld, val)] else []) ++
        (processEquals rules rest).1,
      (processEqualsEntry rules fld val).2 ++ (processEquals rules rest).2) = _
    rw [he, ih h2]
    simp

lemma processContainsEntry_nil (rules : List FilterRule) (field : String) (val : ContVal)
    (h : (processContainsEntry rules field val).2 = []) :
    processContainsEntry rules field val = (true, []) := by
  unfold processContainsEntry at h ⊢
  split at h
  · exact absurd h (by simp)
  · next r heq =>
    by_cases hc : r.allow.contains.getD false = false
    · rw [if_pos hc] at h
      exact absurd h (by simp)
    · rw [if_neg hc] at h ⊢
      exact Prod.ext rfl h

lemma processContains_nil (rules : List FilterRule) (l : List (String × ContVal))
    (h : (processContains rules l).2 = []) : processContains rules l = (l, []) := by
  induction l with
  | nil => rfl
  | cons x rest ih =>
    obtain ⟨fld, val⟩ := x
    have h' : (processContainsEntry rules fld val).2 ++ (processContains rules rest).2 = [] := h
    obtain ⟨h1, h2⟩ := List.append_eq_nil.mp h'
    have he := processContainsEntry_nil rules fld val h1
    show ((if (processContainsEntry rules fld val).1 then [(fld, val)] else []) ++
        (processContains rules rest).1,
      (processContainsEntry rules fld val).2 ++ (processContains rules rest).2) = _
    rw [he, ih h2]
    simp

lemma processRangeOp_nil (allowedOps : List (String × Bool)) (field op : String) (v : RVal)
    (h : (processRangeOp allowedOps field op v).2 = []) :
    processRangeOp allowedOps field op v = (true, []) := by
  unfold processRangeOp at h ⊢
  split at h
  · exact absurd h (by simp)
  · next h1 =>
    split at h
    · exact absurd h (by simp)
    · next h2 =>
      split at h
      · next h3 =>
        split at h
        · split at h
          · next h4 => rw [if_neg h1, if_neg h2, if_pos h3, if_pos h4]
          · exact absurd h (by simp)
        · exact absurd h (by simp)
      · next h3 => rw [if_neg h1, if_neg h2, if_neg h3]

lemma processRangeOps_nil (allowedOps : List (String × Bool)) (field : String)
    (obj : List (String × RVal)) (h : (processRangeOps allowedOps field obj).2 = []) :
    processRangeOps allowedOps field obj = (obj, []) := by
  induction obj with
  | nil => rfl
  | cons x rest ih =>
    obtain ⟨op, v⟩ := x
    have h' : (processRangeOp allowedOps field op v).2 ++
        (processRangeOps allowedOps field rest).2 = [] := h
    obtain ⟨h1, h2⟩ := List.append_eq_nil.mp h'
    have he := processRangeOp_nil allowedOps field op v h1
    show ((if (processRangeOp allowedOps field op v).1 then [(op, v)] else []) ++
        (processRangeOps allowedOps field rest).1,
      (processRangeOp allowedOps field op v).2 ++ (processRangeOps allowedOps field rest).2) = _
    rw [he, ih h2]
    simp

lemma processRangeField_nil (rules : List FilterRule) (field : String)
    (obj : List (String × RVal)) (h : (processRangeField rules field obj).2 = []) :
    processRangeField rules field obj = ((if obj.isEmpty then none else some obj), []) := by
  unfold processRangeField at h ⊢
  split at h
  · exact absurd h (by simp)
  · next rule heq1 =>
    split at h
    · exact absurd h (by simp)
    · next allowedOps heq2 =>
      have h' : (processRangeOps allowedOps field obj).2 ++
          (match rule.validate.range with
            | some f => if f (processRangeOps allowedOps field obj).1 then ([] : List String)
              else ["Custom validation failed for range(" ++ field ++ ")"]
            | none => []) = [] := h
      obtain ⟨h1, h2⟩ := List.append_eq_nil.mp h'
      have hops := processRangeOps_nil allowedOps field obj h1
      show ((if (processRangeOps allowedOps field obj).1.isEmpty then none
          else some (processRangeOps allowedOps field obj).1),
        (processRangeOps allowedOps field obj).2 ++
          (match rule.validate.range with
            | some f => if f (processRangeOps allowedOps field obj).1 then ([] : List String)
              else ["Custom validation failed for range(" ++ field ++ ")"]
            | none => [])) = _
      rw [h2, hops]
      simp

lemma processRange_cons (rules : List FilterRule) (field : String)
    (obj : List (String × RVal)) (rest : List (String × List (String × RVal))) :
    processRange rules ((field, obj) :: rest) =
      ((match (processRangeField rules field obj).1 with
          | some k => [(field, k)] | none => []) ++ (processRange rules rest).1,
       (processRangeField rules field obj).2 ++ (processRange rules rest).2) := rfl

lemma processRange_idem (rules : List FilterRule)
    (l : List (String × List (String × RVal)))
    (h : (processRange rules l).2 = []) :
    processRange rules ((processRange rules l).1) = ((processRange rules l).1, []) := by
  induction l with
  | nil => rfl
  | cons x rest ih =>
    obtain ⟨field, obj⟩ := x
    have h' : (processRangeField rules field obj).2 ++ (processRange rules rest).2 = [] := h
    obtain ⟨h1, h2⟩ := List.append_eq_nil.mp h'
    have hF := processRangeField_nil rules field obj h1
    have heq : processRange rules ((field, obj) :: rest) =
        ((if obj.isEmpty then [] else [(field, obj)]) ++ (processRange rules rest).1, []) := by
      rw [processRange_cons, hF, h2]
      by_cases hobj : obj.isEmpty
      · rw [if_pos hobj, if_pos hobj]
        rfl
      · rw [if_neg hobj, if_neg hobj]
        rfl
    rw [heq]
    by_cases hobj : obj.isEmpty
    · rw [if_pos hobj]
      simpa using ih h2
    · rw [if_neg hobj]
      have hF2 : processRangeField rules field obj = (some obj, []) := by
        rw [hF, if_neg hobj]
      rw [List.singleton_append, processRange_cons, hF2, ih h2]
      rfl

lemma sanitizeEqualsBucket_idem (rules : List FilterRule)
    (lv : Option (List (String × EqVal)))
    (h : (sanitizeEqualsBucket rules lv).2 = []) :
    sanitizeEqualsBucket rules (sanitizeEqualsBucket rules lv).1 =
      ((sanitizeEqualsBucket rules lv).1, []) := by
  match lv with
  | none => rfl
  | some l =>
    have hPE := processEquals_nil rules l h
    have heq : sanitizeEqualsBucket rules (some l) =
        (if l.isEmpty then none else some l, []) := by
      show (if (processEquals rules l).1.isEmpty then none else some (processEquals rules l).1,
        (processEquals rules l).2) = _
      rw [hPE]
    rw [heq]
    by_cases hl : l.isEmpty
    · rw [if_pos hl]
      rfl
    · rw [if_neg hl]
      have heq2 : sanitizeEqualsBucket rules (some l) = (some l, []) := by
        rw [heq, if_neg hl]
      exact heq2

lemma sanitizeContainsBucket_idem (rules : List FilterRule)
    (lv : Option (List (String × ContVal)))
    (h : (sanitizeContainsBucket rules lv).2 = []) :
    sanitizeContainsBucket rules (sanitizeContainsBucket rules lv).1 =
      ((sanitizeContainsBucket rules lv).1, []) := by
  match lv with
  | none => rfl
  | some l =>
    have hPC := processContains_nil rules l h
    have heq : sanitizeContainsBucket rules (some l) =
        (if l.isEmpty then none else some l, []) := by
      show (if (processContains rules l).1.isEmpty then none else some (processContains rules l).1,
        (processContains rules l).2) = _
      rw [hPC]
    rw [heq]
    by_cases hl : l.isEmpty
    · rw [if_pos hl]
      rfl
    · rw [if_neg hl]
      have heq2 : sanitizeContainsBucket rules (some l) = (some l, []) := by
        rw [heq, if_neg hl]
      exact heq2

lemma sanitizeRangeBucket_idem (rules : List FilterRule)
    (lv : Option (List (String × List (String × RVal))))
    (h : (sanitizeRangeBucket rules lv).2 = []) :
    sanitizeRangeBucket rules (sanitizeRangeBucket rules lv).1 =
      ((sanitizeRangeBucket rules lv).1, []) := by
  match lv with
  | none => rfl
  | some l =>
    have hpr2 : (processRange rules l).2 = [] := h
    have hPR := processRange_idem rules l hpr2
    have heq : sanitizeRangeBucket rules (some l) =
        (if (processRange rules l).1.isEmpty then none else some (processRange rules l).1,
         []) := by
      show (if (processRange rules l).1.isEmpty then none else some (processRange rules l).1,
        (processRange rules l).2) = _
      rw [hpr2]
    rw [heq]
    by_cases hl : (processRange rules l).1.isEmpty
    · rw [if_pos hl]
      rfl
    · rw [if_neg hl]
      have heq2 : sanitizeRangeBucket rules (some (processRange rules l).1) =
          (some (processRange rules l).1, []) := by
        show (if (processRange rules (processRange rules l).1).1.isEmpty then none
            else some (processRange rules (processRange rules l).1).1,
          (processRange rules (processRange rules l).1).2) = _
        rw [hPR]
        show (if (processRange rules l).1.isEmpty then none else some (processRange rules l).1,
          ([] : List String)) = _
        rw [if_neg hl]
      exact heq2

/-- An `equals` value free of `undefined` (so the JSON round-trip keeps
it unchanged). -/
def eqValClean : EqVal → Bool
  | .one p => !(p == .undef)
  | .many ps => ps.all fun p => !(p == .undef)

/-- A range value free of `undefined`. -/
def rValClean : RVal → Bool
  | .val p => !(p == .undef)
  | .arr ps => ps.all fun p => !(p == .undef)

/-- A filters object on which the JSON round-trip is the identity. -/
def filtersClean (f : FilterConfig) : Bool :=
  ((f.equals.getD []).all fun e => eqValClean e.2) &&
    ((f.range.getD []).all fun e => e.2.all fun o => rValClean o.2)

lemma jsonEqVal_clean (v w : EqVal) (h : jsonEqVal v = some w) : eqValClean w = true := by
  match v with
  | .one p =>
    cases p <;> simp [jsonEqVal] at h <;> rw [← h] <;> rfl
  | .many ps =>
    have hw : w = .many (ps.map fun p => if p = .undef then .null else p) := by
      simpa [jsonEqVal] using h.symm
    subst hw
    show (ps.map fun p => if p = .undef then Prim.null else p).all (fun p => !(p == .undef)) = true
    rw [List.all_eq_true]
    intro x hx
    obtain ⟨p, _, hp⟩ := List.mem_map.mp hx
    by_cases hu : p = .undef
    · rw [if_pos hu] at hp
      rw [← hp]
      rfl
    · rw [if_neg hu] at hp
      rw [← hp]
      simpa using hu

lemma jsonRVal_clean (v w : RVal) (h : jsonRVal v = some w) : rValClean w = true := by
  match v with
  | .val p =>
    cases p <;> simp [jsonRVal] at h <;> rw [← h] <;> rfl
  | .arr ps =>
    have hw : w = .arr (ps.map fun p => if p = .undef then .null else p) := by
      simpa [jsonRVal] using h.symm
    subst hw
    show (ps.map fun p => if p = .undef then Prim.null else p).all (fun p => !(p == .undef)) = true
    rw [List.all_eq_true]
    intro x hx
    obtain ⟨p, _, hp⟩ := List.mem_map.mp hx
    by_cases hu : p = .undef
    · rw [if_pos hu] at hp
      rw [← hp]
      rfl
    · rw [if_neg hu] at hp
      rw [← hp]
      simpa using hu

lemma mapNoUndef_id (ps : List Prim) (h : (ps.all fun p => !(p == .undef)) = true) :
    (ps.map fun p => if p = .undef then Prim.null else p) = ps := by
  induction ps with
  | nil => rfl
  | cons p rest ih =>
    simp only [List.all_cons, Bool.and_eq_true] at h
    obtain ⟨h1, h2⟩ := h
    rw [List.map_cons, ih h2, if_neg (by simpa using h1)]

lemma jsonEqVal_id (v : EqVal) (h : eqValClean v = true) : jsonEqVal v = some v := by
  match v with
  | .one p =>
    cases p <;> first
      | rfl
      | exact absurd h (by decide)
  | .many ps =>
    show some (EqVal.many (ps.map fun p => if p = Prim.undef then Prim.null else p)) =
      some (EqVal.many ps)
    rw [mapNoUndef_id ps h]

lemma jsonRVal_id (v : RVal) (h : rValClean v = true) : jsonRVal v = some v := by
  match v with
  | .val p =>
    cases p <;> first
      | rfl
      | exact absurd h (by decide)
  | .arr ps =>
    show some (RVal.arr (ps.map fun p => if p = Prim.undef then Prim.null else p)) =
      some (RVal.arr ps)
    rw [mapNoUndef_id ps h]

lemma jsonCopyFilters_clean (f : FilterConfig) : filtersClean (jsonCopyFilters f) = true := by
  unfold filtersClean jsonCopyFilters
  rw [Bool.and_eq_true]
  constructor
  · match f.equals with
    | none => rfl
    | some l =>
      rw [List.all_eq_true]
      intro e he
      obtain ⟨e0, _, he0⟩ := List.mem_filterMap.mp he
      match hv : jsonEqVal e0.2 with
      | none => rw [hv] at he0; exact absurd he0 (by simp)
      | some w =>
        rw [hv] at he0
        have : (e0.1, w) = e := by simpa using he0
        rw [← this]
        exact jsonEqVal_clean e0.2 w hv
  · match f.range with
    | none => rfl
    | some l =>
      rw [List.all_eq_true]
      intro e he
      obtain ⟨e0, _, he0⟩ := List.mem_map.mp he
      rw [← he0]
      rw [List.all_eq_true]
      intro o ho
      obtain ⟨o0, _, ho0⟩ := List.mem_filterMap.mp ho
      match hv : jsonRVal o0.2 with
      | none => rw [hv] at ho0; exact absurd ho0 (by simp)
      | some w =>
        rw [hv] at ho0
        have : (o0.1, w) = o := by simpa using ho0
        rw [← this]
        exact jsonRVal_clean o0.2 w hv

lemma filterMapEq_id (l : List (String × EqVal))
    (h : (l.all fun e => eqValClean e.2) = true) :
    (l.filterMap fun e => (jsonEqVal e.2).map fun v => (e.1, v)) = l := by
  induction l with
  | nil => rfl
  | cons e rest ih =>
    simp only [List.all_cons, Bool.and_eq_true] at h
    obtain ⟨h1, h2⟩ := h
    rw [List.filterMap_cons, jsonEqVal_id e.2 h1]
    simpa using ih h2

lemma filterMapRv_id (obj : List (String × RVal))
    (h : (obj.all fun o => rValClean o.2) = true) :
    (obj.filterMap fun o => (jsonRVal o.2).map fun v => (o.1, v)) = obj := by
  induction obj with
  | nil => rfl
  | cons o rest ih =>
    simp only [List.all_cons, Bool.and_eq_true] at h
    obtain ⟨h1, h2⟩ := h
    rw [List.filterMap_cons, jsonRVal_id o.2 h1]
    simpa using ih h2

lemma mapRangeEntries_id (l : List (String × List (String × RVal)))
    (h : (l.all fun e => e.2.all fun o => rValClean o.2) = true) :
    (l.map fun e => (e.1, e.2.filterMap fun o => (jsonRVal o.2).map fun v => (o.1, v))) = l := by
  induction l with
  | nil => rfl
  | cons e rest ih =>
    simp only [List.all_cons, Bool.and_eq_true] at h
    obtain ⟨h1, h2⟩ := h
    rw [List.map_cons, filterMapRv_id e.2 h1, ih h2]

lemma jsonCopyFilters_id (f : FilterConfig) (h : filtersClean f = true) :
    jsonCopyFilters f = f := by
  unfold filtersClean at h
  rw [Bool.and_eq_true] at h
  obtain ⟨hE, hR⟩ := h
  unfold jsonCopyFilters
  obtain ⟨fe, fc, fr, fraw⟩ := f
  simp only
  congr 1
  · match fe with
    | none => rfl
    | some l =>
      have hl : (l.all fun e => eqValClean e.2) = true := hE
      show some (l.filterMap fun e => (jsonEqVal e.2).map fun v => (e.1, v)) = some l
      rw [filterMapEq_id l hl]
  · match fr with
    | none => rfl
    | some l =>
      have hl : (l.all fun e => e.2.all fun o => rValClean o.2) = true := hR
      show some (l.map fun e => (e.1, e.2.filterMap fun o => (jsonRVal o.2).map fun v => (o.1, v))) = some l
      rw [mapRangeEntries_id l hl]

lemma processEquals_mem (rules : List FilterRule) (l : List (String × EqVal)) :
    ∀ e ∈ (processEquals rules l).1, e ∈ l := by
  induction l with
  | nil => intro e he; exact absurd he (by simp [processEquals])
  | cons x rest ih =>
    intro e he
    obtain ⟨fld, val⟩ := x
    have he' : e ∈ (if (processEqualsEntry rules fld val).1 then [(fld, val)] else []) ++
        (processEquals rules rest).1 := he
    rcases List.mem_append.mp he' with h | h
    · split at h
      · have he2 : e = (fld, val) := by simpa using h
        rw [he2]
        exact List.mem_cons_self _ _
      · exact absurd h (by simp)
    · exact List.mem_cons_of_mem _ (ih e h)

lemma processRangeOps_mem (allowedOps : List (String × Bool)) (field : String)
    (obj : List (String × RVal)) :
    ∀ o ∈ (processRangeOps allowedOps field obj).1, o ∈ obj := by
  induction obj with
  | nil => intro o ho; exact absurd ho (by simp [processRangeOps])
  | cons x rest ih =>
    intro o ho
    obtain ⟨op, v⟩ := x
    have ho' : o ∈ (if (processRangeOp allowedOps field op v).1 then [(op, v)] else []) ++
        (processRangeOps allowedOps field rest).1 := ho
    rcases List.mem_append.mp ho' with h | h
    · split at h
      · have ho2 : o = (op, v) := by simpa using h
        rw [ho2]
        exact List.mem_cons_self _ _
      · exact absurd h (by simp)
    · exact List.mem_cons_of_mem _ (ih o h)

lemma processRange_mem (rules : List FilterRule)
    (l : List (String × List (String × RVal))) :
    ∀ e ∈ (processRange rules l).1, ∃ obj, (e.1, obj) ∈ l ∧ ∀ o ∈ e.2, o ∈ obj := by
  induction l with
  | nil => intro e he; exact absurd he (by simp [processRange])
  | cons x rest ih =>
    intro e he
    obtain ⟨fld, obj0⟩ := x
    have he' : e ∈ (match (processRangeField rules fld obj0).1 with
        | some k => [(fld, k)]
        | none => []) ++ (processRange rules rest).1 := he
    rcases List.mem_append.mp he' with h | h
    · cases hf : (processRangeField rules fld obj0).1 with
      | none => rw [hf] at h; exact absurd h (by simp)
      | some kept =>
        rw [hf] at h
        have he2 : e = (fld, kept) := by simpa using h
        subst he2
        refine ⟨obj0, List.mem_cons_self _ _, ?_⟩
        have hk : ∀ o ∈ kept, o ∈ obj0 := by
          unfold processRangeField at hf
          split at hf
          · exact absurd hf (by simp)
          · split at hf
            · exact absurd hf (by simp)
            · next ops hops =>
              have h' : (if (processRangeOps ops fld obj0).1.isEmpty then none
                  else some (processRangeOps ops fld obj0).1) = some kept := hf
              split at h'
              · exact absurd h' (by simp)
              · injection h' with h'
                rw [← h']
                exact processRangeOps_mem ops fld obj0
        exact hk
    · obtain ⟨obj, hm, ho⟩ := ih e h
      exact ⟨obj, List.mem_cons_of_mem _ hm, ho⟩

lemma sanitizeEqualsBucket_mem (rules : List FilterRule)
    (lv : Option (List (String × EqVal))) (kl : List (String × EqVal))
    (h : (sanitizeEqualsBucket rules lv).1 = some kl) : ∀ e ∈ kl, e ∈ lv.getD [] := by
  match lv with
  | none =>
    have h' : (none : Option (List (String × EqVal))) = some kl := h
    exact absurd h' (by simp)
  | some l =>
    have h' : (if (processEquals rules l).1.isEmpty then none
        else some (processEquals rules l).1) = some kl := h
    split at h'
    · exact absurd h' (by simp)
    · injection h' with h'
      intro e he
      rw [← h'] at he
      exact processEquals_mem rules l e he

lemma sanitizeRangeBucket_mem (rules : List FilterRule)
    (lv : Option (List (String × List (String × RVal))))
    (kl : List (String × List (String × RVal)))
    (h : (sanitizeRangeBucket rules lv).1 = some kl) :
    ∀ e ∈ kl, ∃ obj, (e.1, obj) ∈ lv.getD [] ∧ ∀ o ∈ e.2, o ∈ obj := by
  match lv with
  | none =>
    have h' : (none : Option (List (String × List (String × RVal)))) = some kl := h
    exact absurd h' (by simp)
  | some l =>
    have h' : (if (processRange rules l).1.isEmpty then none
        else some (processRange rules l).1) = some kl := h
    split at h'
    · exact absurd h' (by simp)
    · injection h' with h'
      intro e he
      rw [← h'] at he
      exact processRange_mem rules l e he

lemma sanitizeFilters_clean (g : FilterConfig) (cfg : ValidateFields)
    (hg : filtersClean g = true) (f' : FilterConfig)
    (h : (sanitizeFilters (some g) cfg).1 = some f') : filtersClean f' = true := by
  unfold filtersClean at hg
  rw [Bool.and_eq_true] at hg
  obtain ⟨hgE, hgR⟩ := hg
  cases hcf : cfg.filters with
  | none =>
    rw [sanitizeFilters_none_cfg g cfg hcf] at h
    exact absurd h (by simp)
  | some rules =>
    rw [sanitizeFilters_eq g cfg rules hcf] at h
    by_cases hre : rules.isEmpty
    · rw [if_pos hre] at h
      exact absurd h (by simp)
    · rw [if_neg hre] at h
      by_cases hnn : (sanitizeEqualsBucket rules g.equals).1.isNone ∧
          (sanitizeContainsBucket rules g.contains).1.isNone ∧
          (sanitizeRangeBucket rules g.range).1.isNone
      · rw [if_pos hnn] at h
        exact absurd h (by simp)
      · rw [if_neg hnn] at h
        have hf : some (⟨(sanitizeEqualsBucket rules g.equals).1,
            (sanitizeContainsBucket rules g.contains).1,
            (sanitizeRangeBucket rules g.range).1, none⟩ : FilterConfig) = some f' := h
        have hf2 : f' = ⟨(sanitizeEqualsBucket rules g.equals).1,
            (sanitizeContainsBucket rules g.contains).1,
            (sanitizeRangeBucket rules g.range).1, none⟩ := by
          injection hf with hf
          exact hf.symm
        subst hf2
        unfold filtersClean
        rw [Bool.and_eq_true]
        constructor
        · show (((sanitizeEqualsBucket rules g.equals).1.getD []).all fun e => eqValClean e.2) = true
          cases hE : (sanitizeEqualsBucket rules g.equals).1 with
          | none => rfl
          | some kl =>
            rw [List.all_eq_true]
            intro e he
            have hmem := sanitizeEqualsBucket_mem rules g.equals kl hE e
              (by simpa using he)
            exact List.all_eq_true.mp hgE e hmem
        · show (((sanitizeRangeBucket rules g.range).1.getD []).all
            fun e => e.2.all fun o => rValClean o.2) = true
          cases hR : (sanitizeRangeBucket rules g.range).1 with
          | none => rfl
          | some kl =>
            rw [List.all_eq_true]
            intro e he
            obtain ⟨obj, hobm, hsub⟩ := sanitizeRangeBucket_mem rules g.range kl hR e
              (by simpa using he)
            have hclean := List.all_eq_true.mp hgR (e.1, obj) hobm
            rw [List.all_eq_true]
            intro o ho
            exact List.all_eq_true.mp hclean o (hsub o ho)

lemma sanitizeFilters_buckets (E1 : Option (List (String × EqVal)))
    (C1 : Option (List (String × ContVal)))
    (R1 : Option (List (String × List (String × RVal))))
    (rw0 : Option RawWhere) (cfg : ValidateFields) (rules : List FilterRule)
    (hcf : cfg.filters = some rules) (hre : ¬rules.isEmpty = true) :
    sanitizeFilters (some ⟨E1, C1, R1, rw0⟩) cfg =
      (if (sanitizeEqualsBucket rules E1).1.isNone ∧ (sanitizeContainsBucket rules C1).1.isNone ∧
          (sanitizeRangeBucket rules R1).1.isNone
       then (none, (sanitizeEqualsBucket rules E1).2 ++ (sanitizeContainsBucket rules C1).2 ++
         (sanitizeRangeBucket rules R1).2)
       else (some ⟨(sanitizeEqualsBucket rules E1).1, (sanitizeContainsBucket rules C1).1,
           (sanitizeRangeBucket rules R1).1, none⟩,
         (sanitizeEqualsBucket rules E1).2 ++ (sanitizeContainsBucket rules C1).2 ++
           (sanitizeRangeBucket rules R1).2)) := by
  rw [sanitizeFilters_eq _ cfg rules hcf, if_neg hre]

lemma sanitizeFilters_pass2 (f : Option FilterConfig) (cfg : ValidateFields)
    (hclean : ∀ g, f = some g → filtersClean g = true)
    (h : (sanitizeFilters f cfg).2 = []) :
    sanitizeFilters (((sanitizeFilters f cfg).1).map jsonCopyFilters) cfg =
      ((sanitizeFilters f cfg).1, []) := by
  match f with
  | none => rfl
  | some g =>
    have hg := hclean g rfl
    cases hcf : cfg.filters with
    | none =>
      rw [sanitizeFilters_none_cfg g cfg hcf]
      rfl
    | some rules =>
      by_cases hre : rules.isEmpty
      · have e1 : sanitizeFilters (some g) cfg = (none, []) := by
          rw [sanitizeFilters_eq g cfg rules hcf, if_pos hre]
        rw [e1]
        rfl
      · rw [sanitizeFilters_eq g cfg rules hcf, if_neg hre] at h
        by_cases hnn : (sanitizeEqualsBucket rules g.equals).1.isNone ∧
            (sanitizeContainsBucket rules g.contains).1.isNone ∧
            (sanitizeRangeBucket rules g.range).1.isNone
        · have e1 : sanitizeFilters (some g) cfg =
              (none, (sanitizeEqualsBucket rules g.equals).2 ++
                (sanitizeContainsBucket rules g.contains).2 ++
                (sanitizeRangeBucket rules g.range).2) := by
            rw [sanitizeFilters_eq g cfg rules hcf, if_neg hre, if_pos hnn]
          rw [e1]
          rfl
        · rw [if_neg hnn] at h
          have herrs : (sanitizeEqualsBucket rules g.equals).2 ++
              (sanitizeContainsBucket rules g.contains).2 ++
              (sanitizeRangeBucket rules g.range).2 = [] := h
          obtain ⟨h12, hRe⟩ := List.append_eq_nil.mp herrs
          obtain ⟨hEe, hCe⟩ := List.append_eq_nil.mp h12
          have e1 : sanitizeFilters (some g) cfg =
              (some ⟨(sanitizeEqualsBucket rules g.equals).1,
                (sanitizeContainsBucket rules g.contains).1,
                (sanitizeRangeBucket rules g.range).1, none⟩, []) := by
            rw [sanitizeFilters_eq g cfg rules hcf, if_neg hre, if_neg hnn, herrs]
          rw [e1]
          have hFclean : filtersClean ⟨(sanitizeEqualsBucket rules g.equals).1,
              (sanitizeContainsBucket rules g.contains).1,
              (sanitizeRangeBucket rules g.range).1, none⟩ = true := by
            refine sanitizeFilters_clean g cfg hg _ ?_
            rw [e1]
          have hid := jsonCopyFilters_id _ hFclean
          show sanitizeFilters (some (jsonCopyFilters ⟨(sanitizeEqualsBucket rules g.equals).1,
              (sanitizeContainsBucket rules g.contains).1,
              (sanitizeRangeBucket rules g.range).1, none⟩)) cfg = _
          rw [hid]
          rw [sanitizeFilters_buckets _ _ _ _ cfg rules hcf hre]
          have hEi := sanitizeEqualsBucket_idem rules g.equals hEe
          have hCi := sanitizeContainsBucket_idem rules g.contains hCe
          have hRi := sanitizeRangeBucket_idem rules g.range hRe
          rw [hEi, hCi, hRi]
          show (if (sanitizeEqualsBucket rules g.equals).1.isNone ∧
              (sanitizeContainsBucket rules g.contains).1.isNone ∧
              (sanitizeRangeBucket rules g.range).1.isNone
            then ((none : Option FilterConfig), ([] : List String) ++ [] ++ [])
            else (some ⟨(sanitizeEqualsBucket rules g.equals).1,
                (sanitizeContainsBucket rules g.contains).1,
                (sanitizeRangeBucket rules g.range).1, none⟩,
              ([] : List String) ++ [] ++ [])) = _
          rw [if_neg hnn]
          rfl

lemma sanitizePagination_idem (ps : Option Pagination) (lo hi : Int) :
    sanitizePagination (sanitizePagination ps lo hi) lo hi = sanitizePagination ps lo hi := by
  match ps with
  | none => rfl
  | some p =>
    obtain ⟨m, pg, psz, cur, cf, dir⟩ := p
    by_cases hm : m = some "cursor"
    · subst hm
      have e1 : sanitizePagination (some ⟨some "cursor", pg, psz, cur, cf, dir⟩) lo hi =
          some ⟨some "cursor", pg, some (clamp (psz.getD (.num 20)) lo hi), cur, cf, dir⟩ := by
        simp [sanitizePagination_some]
      have e2 : sanitizePagination (some ⟨some "cursor", pg,
          some (clamp (psz.getD (.num 20)) lo hi), cur, cf, dir⟩) lo hi =
          some ⟨some "cursor", pg,
            some (clamp (clamp (psz.getD (.num 20)) lo hi) lo hi), cur, cf, dir⟩ := by
        simp [sanitizePagination_some]
      rw [e1, e2, clamp_idem, ← e1]
    · have e1 : sanitizePagination (some ⟨m, pg, psz, cur, cf, dir⟩) lo hi =
          some ⟨m, some (jmax (pg.getD (.num 1)) (.num 1)),
            some (clamp (psz.getD (.num 20)) lo hi), cur, cf, dir⟩ := by
        simp [sanitizePagination_some, hm]
      have e2 : sanitizePagination (some ⟨m, some (jmax (pg.getD (.num 1)) (.num 1)),
          some (clamp (psz.getD (.num 20)) lo hi), cur, cf, dir⟩) lo hi =
          some ⟨m, some (jmax (jmax (pg.getD (.num 1)) (.num 1)) (.num 1)),
            some (clamp (clamp (psz.getD (.num 20)) lo hi) lo hi), cur, cf, dir⟩ := by
        simp [sanitizePagination_some, hm]
      rw [e1, e2, clamp_idem, jmax_one_idem, ← e1]

lemma sortDirResult_idem (s : SortOpt) (cfg : ValidateFields)
    (hD : (sortDirResult s cfg).2 = []) :
    sortDirResult { s with sortDir := (sortDirResult s cfg).1, allowlist := none } cfg =
      ((sortDirResult s cfg).1, []) := by
  by_cases ht : strTruthy s.sortDir = true
  case neg =>
    have e : sortDirResult s cfg = (s.sortDir, []) := by
      unfold sortDirResult
      rw [if_neg ht]
    rw [e]
    show sortDirResult { s with sortDir := s.sortDir, allowlist := none } cfg = (s.sortDir, [])
    have ht2 : ¬(strTruthy (SortOpt.sortDir
        { s with sortDir := s.sortDir, allowlist := none }) = true) := ht
    unfold sortDirResult
    rw [if_neg ht2]
  case pos =>
    cases hcd : cfg.sortDir with
    | some allowedDirs =>
      have e0 : sortDirResult s cfg =
          (if !allowedDirs.contains (jsToLower (s.sortDir.getD "")) then
            (s.sortDir, ["Invalid sort direction: " ++ s.sortDir.getD ""])
          else if jsToLower (s.sortDir.getD "") ≠ "asc" ∧ jsToLower (s.sortDir.getD "") ≠ "desc" then
            (s.sortDir, ["Invalid sort direction: " ++ s.sortDir.getD ""])
          else (some (jsToLower (s.sortDir.getD "")), [])) := by
        unfold sortDirResult
        rw [if_pos ht, hcd]
      by_cases hc1 : allowedDirs.contains (jsToLower (s.sortDir.getD "")) = true
      · rw [e0, if_neg (by rw [hc1]; decide)] at hD ⊢
        by_cases hc2 : jsToLower (s.sortDir.getD "") ≠ "asc" ∧ jsToLower (s.sortDir.getD "") ≠ "desc"
        · rw [if_pos hc2] at hD
          exact absurd hD (by simp)
        · rw [if_neg hc2] at hD ⊢
          have hor : jsToLower (s.sortDir.getD "") = "asc" ∨
              jsToLower (s.sortDir.getD "") = "desc" := by
            by_cases ha : jsToLower (s.sortDir.getD "") = "asc"
            · exact .inl ha
            · refine .inr ?_
              by_contra hb
              exact hc2 ⟨ha, hb⟩
          have hJ : jsToLower (jsToLower (s.sortDir.getD "")) = jsToLower (s.sortDir.getD "") := by
            rcases hor with hd | hd <;> rw [hd] <;> decide
          have ht2 : strTruthy (some (jsToLower (s.sortDir.getD ""))) = true := by
            rcases hor with hd | hd <;> rw [hd] <;> decide
          show sortDirResult { s with sortDir := some (jsToLower (s.sortDir.getD "")), allowlist := none } cfg = (some (jsToLower (s.sortDir.getD "")), [])
          have ht3 : strTruthy (SortOpt.sortDir { s with sortDir := some (jsToLower (s.sortDir.getD "")), allowlist := none }) = true := ht2
          unfold sortDirResult
          rw [if_pos ht3, hcd]
          show (if !allowedDirs.contains (jsToLower (jsToLower (s.sortDir.getD ""))) then _
            else if jsToLower (jsToLower (s.sortDir.getD "")) ≠ "asc" ∧
                jsToLower (jsToLower (s.sortDir.getD "")) ≠ "desc" then _
            else (some (jsToLower (jsToLower (s.sortDir.getD ""))), [])) = _
          rw [hJ, if_neg (by rw [hc1]; decide), if_neg hc2]
      · rw [e0, if_pos (by rw [Bool.not_eq_true] at hc1; rw [hc1]; decide)] at hD
        exact absurd hD (by simp)
    | none =>
      have e0 : sortDirResult s cfg =
          (if jsToLower (s.sortDir.getD "") ≠ "asc" ∧ jsToLower (s.sortDir.getD "") ≠ "desc" then
            (s.sortDir, ["Invalid sort direction: " ++ s.sortDir.getD ""])
          else (some (jsToLower (s.sortDir.getD "")), [])) := by
        unfold sortDirResult
        rw [if_pos ht, hcd]
      by_cases hc2 : jsToLower (s.sortDir.getD "") ≠ "asc" ∧ jsToLower (s.sortDir.getD "") ≠ "desc"
      · rw [e0, if_pos hc2] at hD
        exact absurd hD (by simp)
      · rw [e0, if_neg hc2] at hD ⊢
        have hor : jsToLower (s.sortDir.getD "") = "asc" ∨
            jsToLower (s.sortDir.getD "") = "desc" := by
          by_cases ha : jsToLower (s.sortDir.getD "") = "asc"
          · exact .inl ha
          · refine .inr ?_
            by_contra hb
            exact hc2 ⟨ha, hb⟩
        have hJ : jsToLower (jsToLower (s.sortDir.getD "")) = jsToLower (s.sortDir.getD "") := by
          rcases hor with hd | hd <;> rw [hd] <;> decide
        have ht2 : strTruthy (some (jsToLower (s.sortDir.getD ""))) = true := by
          rcases hor with hd | hd <;> rw [hd] <;> decide
        show sortDirResult { s with sortDir := some (jsToLower (s.sortDir.getD "")), allowlist := none } cfg = (some (jsToLower (s.sortDir.getD "")), [])
        have ht3 : strTruthy (SortOpt.sortDir { s with sortDir := some (jsToLower (s.sortDir.getD "")), allowlist := none }) = true := ht2
        unfold sortDirResult
        rw [if_pos ht3, hcd]
        show (if jsToLower (jsToLower (s.sortDir.getD "")) ≠ "asc" ∧
              jsToLower (jsToLower (s.sortDir.getD "")) ≠ "desc" then _
          else (some (jsToLower (jsToLower (s.sortDir.getD ""))), [])) = _
        rw [hJ, if_neg hc2]

lemma sortByErrors_update (s : SortOpt) (d : Option String) (cfg : ValidateFields) :
    sortByErrors { s with sortDir := d, allowlist := none } cfg = sortByErrors s cfg := rfl

lemma sanitizeSort_idem (ss : Option SortOpt) (cfg : ValidateFields)
    (h : (sanitizeSort ss cfg).2 = []) :
    sanitizeSort (sanitizeSort ss cfg).1 cfg = ((sanitizeSort ss cfg).1, []) := by
  match ss with
  | none => rfl
  | some s =>
    have h' : sortByErrors s cfg ++ (sortDirResult s cfg).2 = [] := h
    obtain ⟨hB, hDe⟩ := List.append_eq_nil.mp h'
    have hDi := sortDirResult_idem s cfg hDe
    rw [sanitizeSort_some_eq]
    show sanitizeSort (some { s with sortDir := (sortDirResult s cfg).1, allowlist := none }) cfg =
      (some { s with sortDir := (sortDirResult s cfg).1, allowlist := none }, [])
    rw [sanitizeSort_some_eq, sortByErrors_update, hB, hDi]
    show (some { s with sortDir := (sortDirResult s cfg).1, allowlist := none }, ([] : List String)) = _
    rfl

lemma sanitizeSearch_some_notq (s : Search) (cfg : ValidateFields)
    (hq : ¬strTruthy s.q = true) : sanitizeSearch (some s) cfg = (none, []) := by
  rw [sanitizeSearch_some_eq, if_neg hq]

lemma sanitizeSearch_some_none (s : Search) (cfg : ValidateFields)
    (hq : strTruthy s.q = true) (hcs : cfg.searchColumns = none) :
    sanitizeSearch (some s) cfg = (some { s with columns := some [] }, []) := by
  rw [sanitizeSearch_some_eq, if_pos hq, hcs]

lemma sanitizeSearch_some_sc (s : Search) (cfg : ValidateFields) (sc : List String)
    (hq : strTruthy s.q = true) (hcs : cfg.searchColumns = some sc) :
    sanitizeSearch (some s) cfg =
      (if sc.isEmpty then (some { s with columns := some [] }, [])
       else if (s.columns.getD []).isEmpty then (some { s with columns := some sc }, [])
       else (some { s with columns := some ((s.columns.getD []).filter fun c => sc.contains c) },
         if ((s.columns.getD []).filter fun c => !sc.contains c).isEmpty then []
         else ["Invalid search columns: " ++
           joinSep ", " ((s.columns.getD []).filter fun c => !sc.contains c)])) := by
  rw [sanitizeSearch_some_eq, if_pos hq, hcs]

lemma filter_contains_self (sc : List String) :
    (sc.filter fun c => sc.contains c) = sc := by
  rw [List.filter_eq_self]
  intro a ha
  exact List.elem_eq_true_of_mem ha

lemma filter_not_contains_self (sc : List String) :
    (sc.filter fun c => !sc.contains c) = [] := by
  rw [List.filter_eq_nil_iff]
  intro a ha
  have hc : sc.contains a = true := List.elem_eq_true_of_mem ha
  rw [hc]
  decide

lemma sanitizeSearch_idem (ss : Option Search) (cfg : ValidateFields)
    (h : (sanitizeSearch ss cfg).2 = []) :
    sanitizeSearch (sanitizeSearch ss cfg).1 cfg = ((sanitizeSearch ss cfg).1, []) := by
  match ss with
  | none => rfl
  | some s =>
    by_cases hq : strTruthy s.q = true
    case neg =>
      rw [sanitizeSearch_some_notq s cfg hq]
      rfl
    case pos =>
      cases hcs : cfg.searchColumns with
      | none =>
        rw [sanitizeSearch_some_none s cfg hq hcs]
        have hq2 : strTruthy (Search.q { s with columns := some ([] : List String) }) = true := hq
        show sanitizeSearch (some { s with columns := some ([] : List String) }) cfg = _
        rw [sanitizeSearch_some_none _ cfg hq2 hcs]
      | some sc =>
        by_cases hsce : sc.isEmpty
        · have e1 : sanitizeSearch (some s) cfg = (some { s with columns := some [] }, []) := by
            rw [sanitizeSearch_some_sc s cfg sc hq hcs, if_pos hsce]
          rw [e1]
          have hq2 : strTruthy (Search.q { s with columns := some ([] : List String) }) = true := hq
          show sanitizeSearch (some { s with columns := some ([] : List String) }) cfg = _
          rw [sanitizeSearch_some_sc _ cfg sc hq2 hcs, if_pos hsce]
        · by_cases hreq : (s.columns.getD []).isEmpty
          · have e1 : sanitizeSearch (some s) cfg = (some { s with columns := some sc }, []) := by
              rw [sanitizeSearch_some_sc s cfg sc hq hcs, if_neg hsce, if_pos hreq]
            rw [e1]
            have hq2 : strTruthy (Search.q { s with columns := some sc }) = true := hq
            show sanitizeSearch (some { s with columns := some sc }) cfg = _
            rw [sanitizeSearch_some_sc _ cfg sc hq2 hcs, if_neg hsce]
            have hr2 : ¬((Search.columns { s with columns := some sc }).getD []).isEmpty := by
              show ¬sc.isEmpty = true
              exact hsce
            rw [if_neg hr2]
            show (some { s with columns := some (sc.filter fun c => sc.contains c) },
              if (sc.filter fun c => !sc.contains c).isEmpty then ([] : List String)
              else ["Invalid search columns: " ++
                joinSep ", " (sc.filter fun c => !sc.contains c)]) = _
            rw [filter_contains_self, filter_not_contains_self]
            simp
          · have hbad : ((s.columns.getD []).filter fun c => !sc.contains c) = [] := by
              have h1 : (sanitizeSearch (some s) cfg).2 =
                  (if ((s.columns.getD []).filter fun c => !sc.contains c).isEmpty
                   then ([] : List String)
                   else ["Invalid search columns: " ++
                     joinSep ", " ((s.columns.getD []).filter fun c => !sc.contains c)]) := by
                rw [sanitizeSearch_some_sc s cfg sc hq hcs, if_neg hsce, if_neg hreq]
              rw [h1] at h
              split at h
              · next hb => exact List.isEmpty_iff.mp hb
              · exact absurd h (by simp)
            have hgood : ((s.columns.getD []).filter fun c => sc.contains c) = s.columns.getD [] := by
              rw [List.filter_eq_self]
              intro a ha
              have := List.filter_eq_nil_iff.mp hbad a ha
              simpa using this
            have e1 : sanitizeSearch (some s) cfg =
                (some { s with columns := some (s.columns.getD []) }, []) := by
              rw [sanitizeSearch_some_sc s cfg sc hq hcs, if_neg hsce, if_neg hreq, hbad, hgood]
              simp
            rw [e1]
            have hq2 : strTruthy (Search.q { s with columns := some (s.columns.getD []) }) = true := hq
            show sanitizeSearch (some { s with columns := some (s.columns.getD []) }) cfg = _
            rw [sanitizeSearch_some_sc _ cfg sc hq2 hcs, if_neg hsce]
            have hr2 : ¬((Search.columns { s with columns := some (s.columns.getD []) }).getD []).isEmpty := by
              show ¬(s.columns.getD []).isEmpty = true
              exact hreq
            rw [if_neg hr2]
            show (some { s with columns := some ((s.columns.getD []).filter fun c => sc.contains c) },
              if ((s.columns.getD []).filter fun c => !sc.contains c).isEmpty then ([] : List String)
              else ["Invalid search columns: " ++
                joinSep ", " ((s.columns.getD []).filter fun c => !sc.contains c)]) = _
            rw [hbad, hgood]
            simp

lemma validateCore_idem (opts : BuildQueryOptions) (cfg : ValidateFields)
    (h : (validateCore opts cfg).2 = []) :
    validateCore ((validateCore opts cfg).1) cfg = ((validateCore opts cfg).1, []) := by
  rw [validateCore_errors] at h
  obtain ⟨h12, hF⟩ := List.append_eq_nil.mp h
  obtain ⟨hS, hSe⟩ := List.append_eq_nil.mp h12
  have hclean : ∀ g, opts.filters.map jsonCopyFilters = some g → filtersClean g = true := by
    intro g hg
    match hof : opts.filters with
    | none => rw [hof] at hg; exact absurd hg (by simp)
    | some f0 =>
      rw [hof] at hg
      have hg2 : jsonCopyFilters f0 = g := by simpa using hg
      rw [← hg2]
      exact jsonCopyFilters_clean f0
  have eP := sanitizePagination_idem opts.pagination (cfg.minPageSize.getD 1)
    (cfg.maxPageSize.getD 200)
  have eS := sanitizeSort_idem opts.sort cfg hS
  have eSe := sanitizeSearch_idem opts.search cfg hSe
  have eF := sanitizeFilters_pass2 (opts.filters.map jsonCopyFilters) cfg hclean hF
  show (({ pagination := sanitizePagination (sanitizePagination opts.pagination (cfg.minPageSize.getD 1) (cfg.maxPageSize.getD 200)) (cfg.minPageSize.getD 1) (cfg.maxPageSize.getD 200), sort := (sanitizeSort (sanitizeSort opts.sort cfg).1 cfg).1, search := (sanitizeSearch (sanitizeSearch opts.search cfg).1 cfg).1, filters := (sanitizeFilters (((sanitizeFilters (opts.filters.map jsonCopyFilters) cfg).1).map jsonCopyFilters) cfg).1, defaultOrder := opts.defaultOrder } : BuildQueryOptions), (sanitizeSort (sanitizeSort opts.sort cfg).1 cfg).2 ++ (sanitizeSearch (sanitizeSearch opts.search cfg).1 cfg).2 ++ (sanitizeFilters (((sanitizeFilters (opts.filters.map jsonCopyFilters) cfg).1).map jsonCopyFilters) cfg).2) = _
  rw [eP, eS, eSe, eF]
  rfl

/-- C4: re-validating a successfully validated intent with the same
policy succeeds and returns the same sanitized intent — sanitization is
a projection. -/
theorem validation_idempotent_C4 (opts : BuildQueryOptions) (cfg : ValidateFields)
    (s : BuildQueryOptions) (hok : validateQueryParams opts cfg = .ok s) :
    validateQueryParams s cfg = .ok s := by
  obtain ⟨h2, hs⟩ := validateQueryParams_ok opts cfg s hok
  subst hs
  have hi := validateCore_idem opts cfg h2
  have h2' : (validateCore ((validateCore opts cfg).1) cfg).2 = [] := by rw [hi]
  have := validateQueryParams_eq_ok ((validateCore opts cfg).1) cfg h2'
  rw [this, hi]

/-- A query intent exercising pagination clamping, sort-direction
canonicalization, search-column intersection and an equals filter. -/
def c4SampleIntent : BuildQueryOptions :=
  { pagination := some { page := some (.num 2), pageSize := some (.num 50) },
    sort := some { sortBy := some "title", sortDir := some "ASC" },
    search := some { q := some "foo", columns := some ["name"] },
    filters := some { equals := some [("userId", .one (.str "3"))] } }

/-- A policy accepting `c4SampleIntent`. -/
def c4SampleCfg : ValidateFields :=
  { sortColumns := some ["title"], searchColumns := some ["name"],
    filters := some [{ field := "userId", allow := { equals := some true } }] }

/-- The sanitized result of validating `c4SampleIntent` against
`c4SampleCfg`. -/
def c4SampleSanitized : BuildQueryOptions :=
  { pagination := some { page := some (.num 2), pageSize := some (.num 50) },
    sort := some { sortBy := some "title", sortDir := some "asc", allowlist := none },
    search := some { q := some "foo", columns := some ["name"] },
    filters := some { equals := some [("userId", .one (.str "3"))] } }

/-- Witness for C4: re-validating the sanitized sample is a no-op. -/
theorem validation_idempotent_C4_witness :
    validateQueryParams c4SampleSanitized c4SampleCfg = .ok c4SampleSanitized :=
  validation_idempotent_C4 c4SampleIntent c4SampleCfg c4SampleSanitized (by rfl)
